import Mathlib

/-!
Verification of the AbbonamentiScalea encrypted-storage engine
(`abbonamenti/database/manager.py` and its collaborators) against its
natural-language specification.

The Python source is shallowly embedded: the SQLite tables become Lean lists,
`datetime`, `float` and the cryptographic primitives from the `cryptography`
package become small explicit models (documented at each definition), and the
manager's methods become pure Lean functions over an explicit database state.
Machine-level details that no verified property depends on (actual AES/Fernet
bytes, HMAC-SHA256 output bits, IEEE-754 arithmetic) are modelled by
uninterpreted but executable constructions that preserve exactly the contracts
the code relies on (decrypt-of-encrypt identity, determinism of the HMAC in
its input, injectivity of `repr`).
-/

namespace Abbonamenti

/-! ## Model of Python primitive values

`PyDatetime` models a `datetime.datetime` value through its ISO-8601 string:
`isoformat` and `fromisoformat` are mutually inverse on the values the code
produces, which is the only property of `datetime` the manager relies on.

`PyFloat` models a Python `float` through its `repr` string: `str(x)` and
`float(s)` round-trip exactly in Python (repr guarantee), so a float value is
in bijection with the string the code serialises it to. -/

structure PyDatetime where
  iso : String
deriving DecidableEq, Repr

def PyDatetime.isoformat (d : PyDatetime) : String := d.iso

def pyDatetimeFromIso (s : String) : PyDatetime := ⟨s⟩

structure PyFloat where
  reprStr : String
deriving DecidableEq, Repr

def pyStrOfFloat (x : PyFloat) : String := x.reprStr

def pyFloatOfStr (s : String) : PyFloat := ⟨s⟩

/-! ## Python string operations and SQLite text ordering

Python's `str.strip`/`str.upper`/`str.startswith` and SQLite's BINARY
collation are modelled by structurally recursive functions over the char
list of a `String` (the code only ever feeds them ASCII data). -/

/-- ASCII whitespace as stripped by `str.strip()`. -/
def isSpaceChar (c : Char) : Bool :=
  c == ' ' || c == '\t' || c == '\n' || c == '\r' || c.toNat == 11 || c.toNat == 12

def dropLeadingSpace : List Char → List Char
  | [] => []
  | c :: cs => if isSpaceChar c then dropLeadingSpace cs else c :: cs

/-- Python `s.strip()`. -/
def pyStrip (s : String) : String :=
  ⟨(dropLeadingSpace (dropLeadingSpace s.data).reverse).reverse⟩

/-- Python `s.upper()` (ASCII). -/
def pyUpper (s : String) : String := ⟨s.data.map Char.toUpper⟩

/-- Prefix test on char lists. -/
def listIsPrefixOfB : List Char → List Char → Bool
  | [], _ => true
  | _ :: _, [] => false
  | a :: as, b :: bs => a == b && listIsPrefixOfB as bs

/-- Python `s.startswith(p)`. -/
def pyStartsWith (s p : String) : Bool := listIsPrefixOfB p.data s.data

/-- Byte-wise (codepoint-wise, which coincides on the ASCII data at hand)
strict comparison of char lists: SQLite's BINARY collation used by
`ORDER BY protocol_id`. -/
def charListLtB : List Char → List Char → Bool
  | [], [] => false
  | [], _ :: _ => true
  | _ :: _, [] => false
  | a :: as, b :: bs =>
      if a.toNat < b.toNat then true
      else if b.toNat < a.toNat then false
      else charListLtB as bs

def strLtB (s t : String) : Bool := charListLtB s.data t.data

/-- SQLite `a >= b` on TEXT (BINARY collation). -/
def strGeB (a b : String) : Bool := !(strLtB a b)

/-- SQLite `a <= b` on TEXT (BINARY collation). -/
def strLeB (a b : String) : Bool := !(strLtB b a)

/-! ## Model of the cryptographic primitives

`Ciphertext` models a Fernet token produced by `CryptoManager.encrypt`
(`security/crypto.py` lines 49-53).  The only contract the manager relies on
is `decrypt(encrypt(x)) == x` under the single per-install vault key, so a
ciphertext is modelled as a tagged copy of its plaintext.  (Real Fernet is
randomised; no verified claim depends on ciphertext bytes or randomness.) -/

structure Ciphertext where
  plain : String
deriving DecidableEq, Repr

/-- `CryptoManager.encrypt` (crypto.py line 49). -/
def cryptoEncrypt (data : String) : Ciphertext := ⟨data⟩

/-- `CryptoManager.decrypt` (crypto.py line 52). -/
def cryptoDecrypt (c : Ciphertext) : String := c.plain

/-- `base64.b64encode(..).decode("utf-8")`, modelled as an injective tagging of
the ciphertext bytes into text. -/
def b64OfCiphertext (c : Ciphertext) : String := "b64(" ++ c.plain ++ ")"

/-- HMAC-SHA256 over the canonical serialisation (`HMACManager.generate_hmac`,
hmac.py lines 26-30): `json.dumps(data, sort_keys=True)` followed by a keyed
hash.  Modelled as an uninterpreted executable function of the sorted
key/value list; determinism in the input is the only property used. -/
def hmacGenerate (kvs : List (String × String)) : String :=
  "hmac:" ++ String.intercalate "|"
    ((kvs.insertionSort (fun a b => strLeB a.1 b.1 = true)).map
      (fun kv => kv.1 ++ "=" ++ kv.2))

/-- `HMACManager.verify_hmac` (hmac.py lines 32-40): recomputes and compares
(constant-time in the real code), returning `false` instead of throwing. -/
def hmacVerify (kvs : List (String × String)) (signature : String) : Bool :=
  hmacGenerate kvs == signature

/-! ## Decimal printing and parsing (Python `str`/`int`/format) -/

/-- The decimal digit character for `n % 10`-style values. -/
def digitChar (n : Nat) : Char :=
  if n = 0 then '0' else if n = 1 then '1' else if n = 2 then '2'
  else if n = 3 then '3' else if n = 4 then '4' else if n = 5 then '5'
  else if n = 6 then '6' else if n = 7 then '7' else if n = 8 then '8'
  else '9'

/-- Decimal digit printing, fuel-based so it is structurally recursive
(kernel-evaluable); the fuel is always sufficient at `n + 1`. -/
def natDigitsAux : Nat → Nat → List Char → List Char
  | 0, _, acc => acc
  | fuel + 1, n, acc =>
      if n < 10 then digitChar n :: acc
      else natDigitsAux fuel (n / 10) (digitChar (n % 10) :: acc)

/-- Decimal digit list of a natural number, most significant first
(the digits Python's `str`/`%d` formatting emits). -/
def natDigits (n : Nat) : List Char := natDigitsAux (n + 1) n []

/-- Python `str(n)` for a nonnegative integer. -/
def pyStrNat (n : Nat) : String := ⟨natDigits n⟩

/-- Python's `f"{n:0wd}"` zero-padded decimal formatting. -/
def pyFormatD (w n : Nat) : String :=
  ⟨List.replicate (w - (natDigits n).length) '0' ++ natDigits n⟩

/-- Numeric value of a decimal digit list (most significant first). -/
def digitsVal : List Char → Nat
  | [] => 0
  | c :: cs => (c.toNat - 48) * 10 ^ cs.length + digitsVal cs

/-- ASCII decimal digit test (extensionally `Char.isDigit`). -/
def isDigitChar (c : Char) : Bool := 48 ≤ c.toNat && c.toNat ≤ 57

/-- Python `int(s)` restricted to plain digit strings (the only shape the
manager feeds it); `none` models the `ValueError` Python raises otherwise. -/
def pyInt? (s : String) : Option Nat :=
  if s.data ≠ [] ∧ s.data.all isDigitChar then some (digitsVal s.data) else none

/-- Python `s.split(sep)` for a one-character separator, accumulator form. -/
def pySplitAux (sep : Char) : List Char → List Char → List (List Char)
  | [], acc => [acc.reverse]
  | c :: cs, acc =>
      if c = sep then acc.reverse :: pySplitAux sep cs []
      else pySplitAux sep cs (c :: acc)

/-- Python `s.split(sep)` for a one-character separator. -/
def pySplit (s : String) (sep : Char) : List String :=
  (pySplitAux sep s.data []).map String.mk

/-- `SELECT protocol_id FROM subscriptions WHERE protocol_id LIKE p ORDER BY
protocol_id DESC LIMIT 1` over a list of ids already filtered by the LIKE
pattern: the maximum in BINARY order, `none` when the filter is empty. -/
def sqlMaxBy (l : List String) : Option String :=
  l.foldl (fun acc s =>
    match acc with
    | none => some s
    | some m => if strLtB m s then some s else some m) none

/-- SQLite `LIKE 'p%'` for a pattern that is a literal followed by a single
trailing `%`: case-insensitive (ASCII) prefix match, SQLite's default. -/
def sqlLikeStarts (p s : String) : Bool :=
  listIsPrefixOfB (p.data.map Char.toLower) (s.data.map Char.toLower)

/-! ## Protocol-ID allocation (`DatabaseManager._get_protocol_id`,
manager.py lines 53-87) -/

/-- The current-format LIKE pattern literal `f"{year}-"`. -/
def yearPat (year : Nat) : String := pyStrNat year ++ "-"

/-- The legacy-format LIKE pattern literal `f"SUB-{year_short}-"` where
`year_short = str(year)[2:]`. -/
def legacyPat (year : Nat) : String := "SUB-" ++ (pyStrNat year).drop 2 ++ "-"

/-- `int(result[0].split("-")[i])` applied to one LIKE-query result:
`none` models the `ValueError`/`IndexError` Python would raise on a
malformed stored id. -/
def parseSeq (i : Nat) (s : String) : Option Nat :=
  match (pySplit s '-').get? i with
  | none => none
  | some piece => pyInt? piece

/-- `DatabaseManager._get_protocol_id` (manager.py lines 53-87) as a function
of the current year and the stored protocol ids.  `none` models the
`ValueError`/`IndexError` Python would raise while parsing a malformed id. -/
def get_protocol_id (year : Nat) (ids : List String) : Option String :=
  let result_new := sqlMaxBy (ids.filter (sqlLikeStarts (yearPat year)))
  let result_old := sqlMaxBy (ids.filter (sqlLikeStarts (legacyPat year)))
  match (match result_new with
         | none => some 0
         | some s => (parseSeq 1 s).map (fun v => max 0 v)) with
  | none => none
  | some id1 =>
      match (match result_old with
             | none => some id1
             | some s => (parseSeq 2 s).map (fun v => max id1 v)) with
      | none => none
      | some id2 => some (pyStrNat year ++ "-" ++ pyFormatD 10 (id2 + 1))

/-! ## Database state

The three SQLite tables of `schema.py` become lists of rows (in rowid order:
inserts append).  Column order in `SubRow` matches the `CREATE TABLE`
statement, which is also the order `SELECT *` yields and the hard-coded
`columns` list in `manager.py` lines 99-112 assumes. -/

structure SubRow where
  protocol_id : String
  owner_name : String
  license_plate : String
  email_encrypted : Ciphertext
  address_encrypted : Ciphertext
  mobile_encrypted : Ciphertext
  subscription_start : String
  subscription_end : String
  payment_details_encrypted : Ciphertext
  payment_method : String
  created_at : String
  updated_at : String
deriving DecidableEq, Repr

structure IntegrityRow where
  table_name : String
  record_id : String
  signature : String
  created_at : String
deriving DecidableEq, Repr

structure AuditRow where
  operation_type : String
  protocol_id : String
  user : String
  reason : String
  before_data : Option (List (String × String))
  after_data : Option (List (String × String))
  ip_address : String
  computer_name : String
  timestamp : String
deriving DecidableEq, Repr

structure DBState where
  subs : List SubRow
  integrity : List IntegrityRow
  audit : List AuditRow
deriving DecidableEq, Repr

structure UserInfo where
  user : String
  computer_name : String
  ip_address : String
deriving DecidableEq, Repr

/-- The decrypted view returned by `get_subscription` (the `Subscription`
dataclass of schema.py). -/
structure Subscription where
  protocol_id : String
  owner_name : String
  license_plate : String
  email : String
  address : String
  mobile : String
  subscription_start : PyDatetime
  subscription_end : PyDatetime
  payment_details : PyFloat
  payment_method : String
  created_at : PyDatetime
  updated_at : PyDatetime
deriving DecidableEq, Repr

/-- The column dict built by `_update_integrity_signature` (manager.py lines
99-125) and `verify_data_integrity` (lines 600-626): all twelve columns, the
four BLOB columns replaced by their base64 text. -/
def canonicalRow (r : SubRow) : List (String × String) :=
  [("protocol_id", r.protocol_id),
   ("owner_name", r.owner_name),
   ("license_plate", r.license_plate),
   ("email_encrypted", b64OfCiphertext r.email_encrypted),
   ("address_encrypted", b64OfCiphertext r.address_encrypted),
   ("mobile_encrypted", b64OfCiphertext r.mobile_encrypted),
   ("subscription_start", r.subscription_start),
   ("subscription_end", r.subscription_end),
   ("payment_details_encrypted", b64OfCiphertext r.payment_details_encrypted),
   ("payment_method", r.payment_method),
   ("created_at", r.created_at),
   ("updated_at", r.updated_at)]

/-- `INSERT OR REPLACE INTO data_integrity` under the
`UNIQUE(table_name, record_id)` constraint: SQLite deletes any conflicting
row and appends the new one. -/
def upsertIntegrity (l : List IntegrityRow) (row : IntegrityRow) :
    List IntegrityRow :=
  l.filter (fun r =>
    !(r.table_name == row.table_name && r.record_id == row.record_id)) ++ [row]

/-- `DatabaseManager._update_integrity_signature` (manager.py lines 89-137):
read back the just-written row, canonicalise, sign, upsert the signature. -/
def update_integrity_signature (st : DBState) (pid : String) (now : String) :
    DBState :=
  match st.subs.find? (fun r => r.protocol_id == pid) with
  | none => st
  | some row =>
      let signature := hmacGenerate (canonicalRow row)
      let irow : IntegrityRow :=
        { table_name := "subscriptions"
          record_id := pid
          signature := signature
          created_at := now }
      { st with integrity := upsertIntegrity st.integrity irow }

/-- The plaintext `subscription_data` dict built in `add_subscription`
(manager.py lines 165-178), values rendered to text as `json.dumps(...,
default=str)` does. -/
def subscriptionDataDict (pid own plate email address mobile : String)
    (s e : PyDatetime) (pd : PyFloat) (pm now : String) :
    List (String × String) :=
  [("protocol_id", pid), ("owner_name", own), ("license_plate", plate),
   ("email", email), ("address", address), ("mobile", mobile),
   ("subscription_start", s.isoformat), ("subscription_end", e.isoformat),
   ("payment_details", pyStrOfFloat pd), ("payment_method", pm),
   ("created_at", now), ("updated_at", now)]

/-- `DatabaseManager.add_subscription` (manager.py lines 139-217).
`none` models an uncaught exception (malformed stored id during allocation,
or the PRIMARY KEY violation SQLite would raise). -/
def add_subscription (st : DBState) (year : Nat) (now : String) (ui : UserInfo)
    (owner_name license_plate email address mobile : String)
    (subscription_start subscription_end : PyDatetime)
    (payment_details : PyFloat) (payment_method reason : String) :
    Option (String × DBState) :=
  match get_protocol_id year (st.subs.map (fun r => r.protocol_id)) with
  | none => none
  | some pid =>
      if st.subs.any (fun r => r.protocol_id == pid) then none
      else
        let row : SubRow :=
          { protocol_id := pid
            owner_name := owner_name
            license_plate := license_plate
            email_encrypted := cryptoEncrypt email
            address_encrypted := cryptoEncrypt address
            mobile_encrypted := cryptoEncrypt mobile
            subscription_start := subscription_start.isoformat
            subscription_end := subscription_end.isoformat
            payment_details_encrypted := cryptoEncrypt (pyStrOfFloat payment_details)
            payment_method := pyUpper (pyStrip payment_method)
            created_at := now
            updated_at := now }
        let st2 := update_integrity_signature
          { st with subs := st.subs ++ [row] } pid now
        let aud : AuditRow :=
          { operation_type := "INSERT"
            protocol_id := pid
            user := ui.user
            reason := reason
            before_data := none
            after_data := some (subscriptionDataDict pid owner_name license_plate
              email address mobile subscription_start subscription_end
              payment_details (pyUpper (pyStrip payment_method)) now)
            ip_address := ui.ip_address
            computer_name := ui.computer_name
            timestamp := now }
        some (pid, { st2 with audit := st2.audit ++ [aud] })

/-- `DatabaseManager.get_subscription` (manager.py lines 331-363). -/
def get_subscription (st : DBState) (pid : String) : Option Subscription :=
  match st.subs.find? (fun r => r.protocol_id == pid) with
  | none => none
  | some row => some
      { protocol_id := row.protocol_id, owner_name := row.owner_name,
        license_plate := row.license_plate,
        email := cryptoDecrypt row.email_encrypted,
        address := cryptoDecrypt row.address_encrypted,
        mobile := cryptoDecrypt row.mobile_encrypted,
        subscription_start := pyDatetimeFromIso row.subscription_start,
        subscription_end := pyDatetimeFromIso row.subscription_end,
        payment_details := pyFloatOfStr
          (cryptoDecrypt row.payment_details_encrypted),
        payment_method := row.payment_method,
        created_at := pyDatetimeFromIso row.created_at,
        updated_at := pyDatetimeFromIso row.updated_at }

/-- `str(bytes)` as applied by `json.dumps(..., default=str)` to the raw
encrypted columns of a `get_subscription_raw` dict. -/
def pyReprBytes (c : Ciphertext) : String := "pybytes(" ++ c.plain ++ ")"

/-- The raw-column dict of `get_subscription_raw` (manager.py lines 316-329),
rendered to text for the audit snapshot. -/
def rawRowDict (r : SubRow) : List (String × String) :=
  [("protocol_id", r.protocol_id), ("owner_name", r.owner_name),
   ("license_plate", r.license_plate),
   ("email_encrypted", pyReprBytes r.email_encrypted),
   ("address_encrypted", pyReprBytes r.address_encrypted),
   ("mobile_encrypted", pyReprBytes r.mobile_encrypted),
   ("subscription_start", r.subscription_start),
   ("subscription_end", r.subscription_end),
   ("payment_details_encrypted", pyReprBytes r.payment_details_encrypted),
   ("payment_method", r.payment_method),
   ("created_at", r.created_at), ("updated_at", r.updated_at)]

/-- The per-row effect of the UPDATE statement of `update_subscription`
(manager.py lines 249-269): every row whose `protocol_id` matches gets the
new (re-encrypted) values and a refreshed `updated_at`; `created_at` and
`protocol_id` are untouched. -/
def updRow (pid own plate email address mobile : String)
    (ds de : PyDatetime) (pd : PyFloat) (pm now : String) (r : SubRow) :
    SubRow :=
  if r.protocol_id == pid then
    { r with
      owner_name := own
      license_plate := plate
      email_encrypted := cryptoEncrypt email
      address_encrypted := cryptoEncrypt address
      mobile_encrypted := cryptoEncrypt mobile
      subscription_start := ds.isoformat
      subscription_end := de.isoformat
      payment_details_encrypted := cryptoEncrypt (pyStrOfFloat pd)
      payment_method := pyUpper (pyStrip pm)
      updated_at := now }
  else r

/-- `DatabaseManager.update_subscription` (manager.py lines 219-287). -/
def update_subscription (st : DBState) (now : String) (ui : UserInfo)
    (pid : String) (owner_name license_plate email address mobile : String)
    (subscription_start subscription_end : PyDatetime)
    (payment_details : PyFloat) (payment_method reason : String) :
    Bool × DBState :=
  match st.subs.find? (fun r => r.protocol_id == pid) with
  | none => (false, st)
  | some beforeRow =>
      let st1 := { st with subs := st.subs.map (updRow pid owner_name
        license_plate email address mobile subscription_start subscription_end
        payment_details payment_method now) }
      let st2 := update_integrity_signature st1 pid now
      let afterDict := (st2.subs.find? (fun r => r.protocol_id == pid)).map
        rawRowDict
      let aud : AuditRow :=
        { operation_type := "UPDATE", protocol_id := pid, user := ui.user,
          reason := reason, before_data := some (rawRowDict beforeRow),
          after_data := afterDict, ip_address := ui.ip_address,
          computer_name := ui.computer_name, timestamp := now }
      (true, { st2 with audit := st2.audit ++ [aud] })

/-- `DatabaseManager.verify_data_integrity` (manager.py lines 590-643). -/
def verify_data_integrity (st : DBState) : Bool × List String :=
  let issues := st.subs.foldl (fun issues row =>
    match st.integrity.find? (fun ir => ir.record_id == row.protocol_id) with
    | none => issues ++ ["Missing integrity signature for " ++ row.protocol_id]
    | some ir =>
        if hmacVerify (canonicalRow row) ir.signature then issues
        else issues ++ ["Integrity check failed for " ++ row.protocol_id]) []
  (issues.length == 0, issues)

/-- `DatabaseManager._normalize_payment_method` (manager.py lines 414-425). -/
def normalize_payment_method (method : String) : String :=
  if method == "" then ""
  else
    let normalized := pyUpper (pyStrip method)
    if normalized == "POS" || normalized == "CARD" || normalized == "CARTE"
        || normalized == "CARTA" then "POS"
    else if pyStartsWith normalized "BOLL" || pyStartsWith normalized "BOL" then
      "BOLLETTINO"
    else normalized

/-! ## Bulk import (`DatabaseManager.bulk_add_subscriptions`,
manager.py lines 827-1010)

A batch row is the caller's dict; `none` in a field models a missing key, so
`sub_data["k"]` raises `KeyError` (modelled message `"KeyError: k"`) while
`sub_data.get("k", "")` defaults.  The whole batch runs inside one SQLite
transaction: an exception anywhere triggers `conn.rollback()`, modelled by
returning the original state. -/

structure BulkInput where
  owner_name : Option String
  license_plate : Option String
  email : Option String
  address : Option String
  mobile : Option String
  subscription_start : Option PyDatetime
  subscription_end : Option PyDatetime
  payment_details : Option PyFloat
  payment_method : Option String
deriving DecidableEq, Repr

/-- `sub_data["k"]`: value or `KeyError`. -/
def dictKey (v : Option α) (k : String) : Except String α :=
  match v with
  | some x => .ok x
  | none => .error ("KeyError: " ++ k)

/-- The duplicated protocol-id scan at the top of the bulk transaction
(manager.py lines 856-877): the highest existing sequence across both
formats, before any insert of this batch.  Errors model the `ValueError` /
`IndexError` Python raises on a malformed stored id. -/
def bulk_last_id (year : Nat) (ids : List String) : Except String Nat :=
  let result_new := sqlMaxBy (ids.filter (sqlLikeStarts (yearPat year)))
  let result_old := sqlMaxBy (ids.filter (sqlLikeStarts (legacyPat year)))
  match (match result_new with
         | none => Except.ok 0
         | some s =>
             match parseSeq 1 s with
             | none => Except.error ("could not parse stored id: " ++ s)
             | some v => Except.ok (max 0 v)) with
  | .error e => .error e
  | .ok last1 =>
      match result_old with
      | none => Except.ok last1
      | some s =>
          match parseSeq 2 s with
          | none => Except.error ("could not parse stored id: " ++ s)
          | some v => Except.ok (max last1 v)

/-- The audit snapshot dict of the bulk loop (manager.py lines 967-980). -/
def bulkAuditDict (pid : String) (own plate email address mobile : String)
    (s e : PyDatetime) (pd : PyFloat) (pm now : String) :
    List (String × String) :=
  [("protocol_id", pid), ("owner_name", own), ("license_plate", plate),
   ("email", email), ("address", address), ("mobile", mobile),
   ("subscription_start", s.isoformat), ("subscription_end", e.isoformat),
   ("payment_details", pyStrOfFloat pd), ("payment_method", pm),
   ("created_at", now), ("updated_at", now)]

/-- One iteration of the bulk-insert loop (manager.py lines 879-1001); dict
accesses happen in Python evaluation order, and the two uniqueness
constraints model SQLite's `IntegrityError`s. -/
def bulk_process_row (year : Nat) (now : String) (ui : UserInfo)
    (reason : String) (last_id idx : Nat) (st : DBState) (sub : BulkInput) :
    Except String DBState :=
  let pid := pyStrNat year ++ "-" ++ pyFormatD 10 (last_id + idx + 1)
  let ee := cryptoEncrypt (sub.email.getD "")
  let ae := cryptoEncrypt (sub.address.getD "")
  let mo := cryptoEncrypt (sub.mobile.getD "")
  match dictKey sub.payment_details "payment_details" with
  | .error e => .error e
  | .ok pd =>
  let pe := cryptoEncrypt (pyStrOfFloat pd)
  match dictKey sub.owner_name "owner_name" with
  | .error e => .error e
  | .ok own =>
  match dictKey sub.license_plate "license_plate" with
  | .error e => .error e
  | .ok plate =>
  match dictKey sub.subscription_start "subscription_start" with
  | .error e => .error e
  | .ok sstart =>
  match dictKey sub.subscription_end "subscription_end" with
  | .error e => .error e
  | .ok send =>
  match dictKey sub.payment_method "payment_method" with
  | .error e => .error e
  | .ok pm =>
  if st.subs.any (fun r => r.protocol_id == pid) then
    .error "UNIQUE constraint failed: subscriptions.protocol_id"
  else
    let row : SubRow :=
      { protocol_id := pid
        owner_name := own
        license_plate := plate
        email_encrypted := ee
        address_encrypted := ae
        mobile_encrypted := mo
        subscription_start := sstart.isoformat
        subscription_end := send.isoformat
        payment_details_encrypted := pe
        payment_method := pm
        created_at := now
        updated_at := now }
    let st1 := { st with subs := st.subs ++ [row] }
    -- read back the just-inserted row and sign it
    match st1.subs.find? (fun r => r.protocol_id == pid) with
    | none => pure st1
    | some rb =>
        if st1.integrity.any (fun ir =>
            ir.table_name == "subscriptions" && ir.record_id == pid) then
          .error
            "UNIQUE constraint failed: data_integrity.table_name, data_integrity.record_id"
        else
          let irow : IntegrityRow :=
            { table_name := "subscriptions"
              record_id := pid
              signature := hmacGenerate (canonicalRow rb)
              created_at := now }
          let st2 := { st1 with integrity := st1.integrity ++ [irow] }
          let aud : AuditRow :=
            { operation_type := "INSERT"
              protocol_id := pid
              user := ui.user
              reason := reason
              before_data := none
              after_data := some (bulkAuditDict pid own plate (sub.email.getD "")
                (sub.address.getD "") (sub.mobile.getD "") sstart send pd pm now)
              ip_address := ui.ip_address
              computer_name := ui.computer_name
              timestamp := now }
          pure { st2 with audit := st2.audit ++ [aud] }

/-- `DatabaseManager.bulk_add_subscriptions` (manager.py lines 827-1010):
everything inside one transaction; any exception rolls the whole batch back
and is returned as `(False, str(e))`. -/
def bulk_add_subscriptions (st : DBState) (year : Nat) (now : String)
    (ui : UserInfo) (rows : List BulkInput) (reason : String) :
    (Bool × String) × DBState :=
  match bulk_last_id year (st.subs.map (fun r => r.protocol_id)) with
  | .error e => ((false, e), st)
  | .ok last =>
      match rows.enum.foldlM
          (fun acc p => bulk_process_row year now ui reason last p.1 acc p.2)
          st with
      | .ok st2 => ((true, ""), st2)
      | .error e => ((false, e), st)

/-! ## Analytics projection (`get_payment_statistics`,
manager.py lines 365-412 and 645-689) -/

/-- `datetime.year` of a model datetime, read off its ISO string
(`YYYY-...`). -/
def PyDatetime.year (d : PyDatetime) : Nat := (pyInt? (d.iso.take 4)).getD 0

/-- `datetime.month` of a model datetime (`YYYY-MM-...`). -/
def PyDatetime.month (d : PyDatetime) : Nat :=
  (pyInt? ((d.iso.drop 5).take 2)).getD 0

/-- IEEE-754 addition, uninterpreted: no verified property depends on float
arithmetic, only on which rows are aggregated. -/
def pyFloatAdd (a b : PyFloat) : PyFloat :=
  ⟨"(" ++ a.reprStr ++ "+" ++ b.reprStr ++ ")"⟩

/-- IEEE-754 division, uninterpreted (same remark as `pyFloatAdd`). -/
def pyFloatDiv (a : PyFloat) (n : Nat) : PyFloat :=
  ⟨"(" ++ a.reprStr ++ "/" ++ pyStrNat n ++ ")"⟩

structure StatsEntry where
  protocol_id : String
  subscription_start : PyDatetime
  subscription_end : PyDatetime
  payment_details : PyFloat
  payment_method : String
deriving DecidableEq, Repr

/-- `DatabaseManager._get_subscriptions_for_stats` (manager.py lines
365-412): optional TEXT-comparison date filter on `subscription_start`,
`ORDER BY protocol_id`, decrypt only the payment amount. -/
def get_subscriptions_for_stats (st : DBState)
    (date_from date_to : Option PyDatetime) : List StatsEntry :=
  let rows := st.subs.filter (fun r =>
    (match date_from with
     | some d => strGeB r.subscription_start d.isoformat
     | none => true) &&
    (match date_to with
     | some d => strLeB r.subscription_start d.isoformat
     | none => true))
  let sorted := rows.insertionSort (fun a b => strLeB a.protocol_id b.protocol_id = true)
  sorted.map (fun r =>
    { protocol_id := r.protocol_id
      subscription_start := pyDatetimeFromIso r.subscription_start
      subscription_end := pyDatetimeFromIso r.subscription_end
      payment_details := pyFloatOfStr (cryptoDecrypt r.payment_details_encrypted)
      payment_method := r.payment_method })

structure PaymentStats where
  total_revenue : PyFloat
  subscription_count : Nat
  average_payment : PyFloat
  pos_count : Nat
  bollettino_count : Nat
deriving DecidableEq, Repr

/-- Python truthiness of an `Optional[int]` (`if year:`): `None` and `0` are
both falsy. -/
def pyTruthy (o : Option Nat) : Bool := o.getD 0 != 0

/-- `DatabaseManager.get_payment_statistics` (manager.py lines 645-689). -/
def get_payment_statistics (st : DBState) (year month : Option Nat)
    (date_from date_to : Option PyDatetime) : PaymentStats :=
  let subs := get_subscriptions_for_stats st date_from date_to
  let filtered := subs.filter (fun sub =>
    if date_from.isNone && date_to.isNone then
      (!(pyTruthy year) || sub.subscription_start.year == year.getD 0) &&
      (!(pyTruthy month) || sub.subscription_start.month == month.getD 0)
    else true)
  let total := (filtered.map (fun s => s.payment_details)).foldl pyFloatAdd ⟨"0"⟩
  let count := filtered.length
  let avg := if count > 0 then pyFloatDiv total count else ⟨"0.0"⟩
  let pos := (filtered.filter (fun s =>
    normalize_payment_method s.payment_method == "POS")).length
  let boll := (filtered.filter (fun s =>
    normalize_payment_method s.payment_method == "BOLLETTINO")).length
  { total_revenue := total
    subscription_count := count
    average_payment := avg
    pos_count := pos
    bollettino_count := boll }

/-! ## Backup engine (`perform_secure_backup`, manager.py lines 1012-1129)

Filesystem state relevant to a backup run: the temporary snapshot file, the
temporary zip package, and the final destination path's content.  I/O faults
(disk full, permission error, ...) are injected as an optional
`(operation index, exception message)` pair: the operations before the fault
have happened, the faulting one raises.  Cryptographic outputs (the random
salt and the Fernet ciphertext of the archive) are oracle parameters since
both are randomised. -/

def backupMagic : List Nat := [56, 55, 48, 50, 57]  -- b"87029"

structure BackupFS where
  temp_db : Option String
  temp_zip : Option String
  dest : Option (List Nat)
deriving DecidableEq, Repr

/-- The zip container of step 3 (database + the two key files when present),
as an uninterpreted but injective packaging of its inputs. -/
def zipPackage (db : String) (fernetKey hmacKey : Option String) : String :=
  "zip(" ++ db ++ "," ++ (fernetKey.getD "-") ++ "," ++ (hmacKey.getD "-") ++ ")"

/-- The I/O operations of `perform_secure_backup` in program order: VACUUM
snapshot, zip write, archive read+encrypt, then `open(backup_path, "wb")`
followed by the four sequential `f.write` calls, then the two temp-file
unlinks. -/
def backupOps (dbContent : String) (fernetKey hmacKey : Option String)
    (salt encData : List Nat) : List (BackupFS → BackupFS) :=
  [fun fs => { fs with temp_db := some dbContent },
   fun fs => { fs with temp_zip := some (zipPackage dbContent fernetKey hmacKey) },
   fun fs => fs,
   fun fs => { fs with dest := some [] },
   fun fs => { fs with dest := some backupMagic },
   fun fs => { fs with dest := some (backupMagic ++ [1]) },
   fun fs => { fs with dest := some (backupMagic ++ [1] ++ salt) },
   fun fs => { fs with dest := some (backupMagic ++ [1] ++ salt ++ encData) },
   fun fs => { fs with temp_db := none },
   fun fs => { fs with temp_zip := none }]

/-- Run a list of filesystem operations with an optional injected fault:
`some (k, m)` makes the `k`-th operation raise `m` after the first `k` have
completed. -/
def runFaulty (ops : List (σ → σ)) (fault : Option (Nat × String)) (s : σ) :
    Except (String × σ) σ :=
  match fault with
  | none => .ok (ops.foldl (fun s f => f s) s)
  | some (k, m) =>
      if k < ops.length then
        .error (m, (ops.take k).foldl (fun s f => f s) s)
      else .ok (ops.foldl (fun s f => f s) s)

/-- The `except` cleanup of `perform_secure_backup` (lines 1115-1128):
unlink the temp snapshot and package if they exist. -/
def backupCleanup (fs : BackupFS) : BackupFS :=
  { fs with temp_db := none, temp_zip := none }

/-- `DatabaseManager.perform_secure_backup` (manager.py lines 1012-1129).
`outPath` is `str(backup_path)`, returned on success. -/
def perform_secure_backup (fs : BackupFS) (passphrase : String)
    (dbContent : String) (fernetKey hmacKey : Option String)
    (salt encData : List Nat) (outPath : String)
    (fault : Option (Nat × String)) : (Bool × String) × BackupFS :=
  if passphrase.length < 16 then
    -- derive_key_from_passphrase raises ValueError before any I/O
    ((false, "Passphrase deve essere di almeno 16 caratteri"), backupCleanup fs)
  else
    match runFaulty (backupOps dbContent fernetKey hmacKey salt encData) fault fs with
    | .ok fs2 => ((true, outPath), fs2)
    | .error (m, fs2) =>
        ((false, "Errore durante il backup: " ++ m), backupCleanup fs2)

/-! ## Restore engine (`restore_secure_backup`, manager.py lines 1131-1277)

The live registry is the storage file plus the keys directory (a map from
file name to content).  Decrypt-and-unzip of the archive payload is an
oracle (`decryptOk`, `archive`) since it depends on the passphrase-derived
Fernet key; faults during the file-replacement phase are injected as in the
backup model. -/

structure LiveFS where
  db : Option String
  keys : Option (List (String × String))
deriving DecidableEq, Repr

structure RestoreArchive where
  db : Option String
  keys : Option (List (String × String))
deriving DecidableEq, Repr

/-- `shutil.copy2` of one key file into the keys directory: overwrite by
name, else add. -/
def dirWrite (d : List (String × String)) (name content : String) :
    List (String × String) :=
  if d.any (fun kv => kv.1 == name) then
    d.map (fun kv => if kv.1 == name then (name, content) else kv)
  else d ++ [(name, content)]

/-- The file operations of the replacement phase (manager.py lines
1228-1245): copy the restored database over the live one, then (when the
archive carries a keys directory) `mkdir(exist_ok=True)` and copy each key
file. -/
def restoreReplaceOps (archiveDb : String)
    (archiveKeys : Option (List (String × String))) : List (LiveFS → LiveFS) :=
  [fun l => { l with db := some archiveDb }] ++
  (match archiveKeys with
   | none => []
   | some ks =>
       [fun l => { l with keys := some (l.keys.getD []) }] ++
       ks.map (fun kv => fun l =>
         { l with keys := some (dirWrite (l.keys.getD []) kv.1 kv.2) }))

/-- The rollback of manager.py lines 1256-1263: restore the database and the
keys directory from the safety copy, each only when that safety copy was
actually taken (i.e. the live file/directory existed before the restore). -/
def restoreRollback (preDb : Option String)
    (preKeys : Option (List (String × String))) (l : LiveFS) : LiveFS :=
  let l1 := match preDb with
    | some d => { l with db := some d }
    | none => l
  match preKeys with
  | some ks => { l1 with keys := some ks }
  | none => l1

/-- `DatabaseManager.restore_secure_backup` (manager.py lines 1131-1277). -/
def restore_secure_backup (live : LiveFS) (file : Option (List Nat))
    (passphrase : String) (decryptOk : Bool) (archive : RestoreArchive)
    (fault : Option (Nat × String)) : (Bool × String) × LiveFS :=
  match file with
  | none => ((false, "File di backup non trovato"), live)
  | some bytes =>
      if bytes.take 5 != backupMagic then
        ((false, "File non valido: non è un backup di AbbonaMunicipale"), live)
      else if (bytes.drop 5).take 1 != [1] then
        ((false, "Versione backup non supportata"), live)
      else if passphrase.length < 16 then
        -- derive_key_from_passphrase raises ValueError, caught at line 1267
        ((false, "Passphrase deve essere di almeno 16 caratteri"), live)
      else if !decryptOk then
        ((false, "Passphrase non corretta o backup danneggiato"), live)
      else
        -- safety copy of the current files (lines 1214-1226)
        let preDb := live.db
        let preKeys := live.keys
        match archive.db with
        | none => ((false, "Database non trovato nel backup"), live)
        | some adb =>
            match runFaulty (restoreReplaceOps adb archive.keys) fault live with
            | .ok live2 =>
                ((true, "Backup ripristinato con successo."), live2)
            | .error (m, live2) =>
                ((false, "Errore durante il ripristino (rollback eseguito): " ++ m),
                 restoreRollback preDb preKeys live2)

/-! ## Keys-only export and import
(`gui/dialogs/key_export_dialog.py` lines 218-245 and
`gui/dialogs/key_import_dialog.py` lines 143-181) -/

/-- The bytes `KeyExportDialog.export_keys` writes: magic, version 0x02,
salt, ciphertext (key_export_dialog.py lines 238-242). -/
def key_export_bytes (salt encData : List Nat) : List Nat :=
  backupMagic ++ [2] ++ salt ++ encData

/-- Header classification of `KeyImportDialog._import_keys` for a `.enc`
file (key_import_dialog.py lines 143-181): on the happy path it returns the
salt and encrypted payload to decrypt. -/
def key_import_classify (data : List Nat) (passwordLen : Nat) :
    Except String (List Nat × List Nat) :=
  if data.isEmpty then .error "File vuoto"
  else if data.length < 5 then .error "File non valido (troppo corto)"
  else if data.take 5 != backupMagic then
    .error "File non valido: non è un backup di AbbonaMunicipale"
  else
    match data.get? 5 with
    | none => .error "IndexError: index out of range"
    | some h =>
        if h == 2 then
          if passwordLen < 16 then .error "Password minima: 16 caratteri"
          else .ok ((data.drop 6).take 32, data.drop 38)
        else if h == 1 then
          .error "Hai selezionato un backup del database (.enc v1).\nPer ripristinare il database usa Ripristina Backup.\nPer le chiavi usa il file esportato da Esporta Chiave di Recupero."
        else
          .error ("Formato backup non riconosciuto (versione " ++ pyStrNat h ++ ").")

/-- The protocol id the bulk loop formats for sequence number `next_id`. -/
def bulkPid (year next_id : Nat) : String :=
  pyStrNat year ++ "-" ++ pyFormatD 10 next_id

/-- The first missing required dict key of a bulk row, in the evaluation
order of the loop body; `none` when every required key is present. -/
def bulkRowError (r : BulkInput) : Option String :=
  if r.payment_details.isNone then some "KeyError: payment_details"
  else if r.owner_name.isNone then some "KeyError: owner_name"
  else if r.license_plate.isNone then some "KeyError: license_plate"
  else if r.subscription_start.isNone then some "KeyError: subscription_start"
  else if r.subscription_end.isNone then some "KeyError: subscription_end"
  else if r.payment_method.isNone then some "KeyError: payment_method"
  else none

/-- A bulk row with every required key present. -/
def bulkRowOK (r : BulkInput) : Bool := (bulkRowError r).isNone

/-- The subscription row the bulk loop inserts for input `sub` at sequence
number `next_id` (field values as read under `bulkRowOK`). -/
def bulkRow (year : Nat) (now : String) (next_id : Nat) (sub : BulkInput) :
    SubRow :=
  { protocol_id := bulkPid year next_id
    owner_name := sub.owner_name.getD ""
    license_plate := sub.license_plate.getD ""
    email_encrypted := cryptoEncrypt (sub.email.getD "")
    address_encrypted := cryptoEncrypt (sub.address.getD "")
    mobile_encrypted := cryptoEncrypt (sub.mobile.getD "")
    subscription_start := (sub.subscription_start.getD ⟨""⟩).isoformat
    subscription_end := (sub.subscription_end.getD ⟨""⟩).isoformat
    payment_details_encrypted :=
      cryptoEncrypt (pyStrOfFloat (sub.payment_details.getD ⟨""⟩))
    payment_method := sub.payment_method.getD ""
    created_at := now
    updated_at := now }

/-- The integrity row the bulk loop writes for that subscription row. -/
def bulkIRow (year : Nat) (now : String) (next_id : Nat) (sub : BulkInput) :
    IntegrityRow :=
  { table_name := "subscriptions"
    record_id := bulkPid year next_id
    signature := hmacGenerate (canonicalRow (bulkRow year now next_id sub))
    created_at := now }

/-- The audit row the bulk loop writes for that subscription row. -/
def bulkARow (year : Nat) (now : String) (ui : UserInfo) (reason : String)
    (next_id : Nat) (sub : BulkInput) : AuditRow :=
  { operation_type := "INSERT"
    protocol_id := bulkPid year next_id
    user := ui.user
    reason := reason
    before_data := none
    after_data := some (bulkAuditDict (bulkPid year next_id)
      (sub.owner_name.getD "") (sub.license_plate.getD "") (sub.email.getD "")
      (sub.address.getD "") (sub.mobile.getD "")
      (sub.subscription_start.getD ⟨""⟩) (sub.subscription_end.getD ⟨""⟩)
      (sub.payment_details.getD ⟨""⟩) (sub.payment_method.getD "") now)
    ip_address := ui.ip_address
    computer_name := ui.computer_name
    timestamp := now }

/-- The issue `verify_data_integrity` reports for a single row, if any: one
string for a missing signature, one for a mismatched signature. -/
def rowIssue (st : DBState) (row : SubRow) : Option String :=
  match st.integrity.find? (fun ir => ir.record_id == row.protocol_id) with
  | none => some ("Missing integrity signature for " ++ row.protocol_id)
  | some ir =>
      if hmacVerify (canonicalRow row) ir.signature then none
      else some ("Integrity check failed for " ++ row.protocol_id)

/-- `pid` collides with neither an existing subscription row (PRIMARY KEY)
nor an existing integrity row (`UNIQUE(table_name, record_id)`). -/
def pidFresh (st : DBState) (pid : String) : Bool :=
  !(st.subs.any (fun r => r.protocol_id == pid)) &&
  !(st.integrity.any (fun ir =>
      ir.table_name == "subscriptions" && ir.record_id == pid))

/-- The row `add_subscription` inserts (its INSERT statement with the
arguments of manager.py lines 187-200). -/
def addedRow (pid own plate email address mobile : String) (ds de : PyDatetime)
    (pd : PyFloat) (pm now : String) : SubRow :=
  { protocol_id := pid
    owner_name := own
    license_plate := plate
    email_encrypted := cryptoEncrypt email
    address_encrypted := cryptoEncrypt address
    mobile_encrypted := cryptoEncrypt mobile
    subscription_start := ds.isoformat
    subscription_end := de.isoformat
    payment_details_encrypted := cryptoEncrypt (pyStrOfFloat pd)
    payment_method := pyUpper (pyStrip pm)
    created_at := now
    updated_at := now }


/-! ## C2 statement-side readings of the two id formats -/

/-- The legacy-format protocol id `SUB-YY-NNNN` with sequence `n` (the shape
the pre-migration code wrote, which `_get_protocol_id` still parses). -/
def legPid (year n : Nat) : String := legacyPat year ++ pyFormatD 4 n

/-- Spec-side reading of a current-format id `YYYY-NNNNNNNNNN`: the value of
the 10-digit sequence after the `f"{year}-"` prefix, `none` when the id does
not have exactly that shape. -/
def specCurSeq (year : Nat) (id : String) : Option Nat :=
  if id.data.take (yearPat year).data.length = (yearPat year).data ∧
      (id.data.drop (yearPat year).data.length).length = 10 ∧
      (id.data.drop (yearPat year).data.length).all isDigitChar = true
  then some (digitsVal (id.data.drop (yearPat year).data.length))
  else none

/-- Spec-side reading of a legacy-format id `SUB-YY-NNNN`: the value of the
4-digit sequence after the `f"SUB-{year_short}-"` prefix. -/
def specLegSeq (year : Nat) (id : String) : Option Nat :=
  if id.data.take (legacyPat year).data.length = (legacyPat year).data ∧
      (id.data.drop (legacyPat year).data.length).length = 4 ∧
      (id.data.drop (legacyPat year).data.length).all isDigitChar = true
  then some (digitsVal (id.data.drop (legacyPat year).data.length))
  else none

/-! # Helper lemmas -/

lemma natDigitsAux_acc (fuel : Nat) :
    ∀ n acc, natDigitsAux fuel n acc = natDigitsAux fuel n [] ++ acc := by
  induction fuel with
  | zero => intro n acc; rfl
  | succ f ih =>
      intro n acc
      by_cases h : n < 10
      · simp [natDigitsAux, h]
      · simp only [natDigitsAux, if_neg h]
        rw [ih (n / 10) (digitChar (n % 10) :: acc), ih (n / 10) [digitChar (n % 10)]]
        simp

lemma natDigitsAux_fuel : ∀ f1 f2 n acc, n < f1 → n < f2 →
    natDigitsAux f1 n acc = natDigitsAux f2 n acc := by
  intro f1
  induction f1 with
  | zero => intro f2 n acc h1 _; exact absurd h1 (Nat.not_lt_zero n)
  | succ f ih =>
      intro f2 n acc h1 h2
      cases f2 with
      | zero => exact absurd h2 (Nat.not_lt_zero n)
      | succ g =>
          by_cases h : n < 10
          · simp [natDigitsAux, h]
          · simp only [natDigitsAux, if_neg h]
            exact ih g (n / 10) _ (by omega) (by omega)

/-- The recursive unfolding of `natDigits`. -/
lemma natDigits_eq (n : Nat) :
    natDigits n =
      if n < 10 then [digitChar n]
      else natDigits (n / 10) ++ [digitChar (n % 10)] := by
  by_cases h : n < 10
  · rw [if_pos h]; unfold natDigits; simp [natDigitsAux, h]
  · rw [if_neg h]
    conv_lhs => unfold natDigits
    simp only [natDigitsAux, if_neg h]
    rw [natDigitsAux_acc]
    congr 1
    exact natDigitsAux_fuel n (n / 10 + 1) (n / 10) [] (by omega) (by omega)

lemma digitChar_toNat (n : Nat) (h : n < 10) : (digitChar n).toNat = 48 + n := by
  interval_cases n <;> rfl

lemma digitChar_isDigit (n : Nat) (h : n < 10) : isDigitChar (digitChar n) = true := by
  interval_cases n <;> rfl

lemma natDigits_ne_nil (n : Nat) : natDigits n ≠ [] := by
  rw [natDigits_eq]
  by_cases h : n < 10 <;> simp [h]

lemma natDigits_all_digits (n : Nat) :
    ∀ c ∈ natDigits n, isDigitChar c = true := by
  induction n using Nat.strong_induction_on with
  | _ n ih =>
      rw [natDigits_eq]
      by_cases h : n < 10
      · rw [if_pos h]
        intro c hc
        rw [List.mem_singleton] at hc
        subst hc
        exact digitChar_isDigit n h
      · rw [if_neg h]
        intro c hc
        rcases List.mem_append.mp hc with hc | hc
        · exact ih (n / 10) (by omega) c hc
        · rw [List.mem_singleton] at hc
          subst hc
          exact digitChar_isDigit _ (Nat.mod_lt _ (by omega))

lemma digitsVal_append_last (xs : List Char) (c : Char) :
    digitsVal (xs ++ [c]) = digitsVal xs * 10 + (c.toNat - 48) := by
  induction xs with
  | nil => simp [digitsVal]
  | cons x xs ih =>
      show (x.toNat - 48) * 10 ^ (xs ++ [c]).length + digitsVal (xs ++ [c]) = _
      rw [ih, List.length_append]
      simp only [List.length_singleton]
      rw [pow_succ]
      have hx : digitsVal (x :: xs) =
          (x.toNat - 48) * 10 ^ xs.length + digitsVal xs := rfl
      rw [hx]
      ring

lemma digitsVal_natDigits (n : Nat) : digitsVal (natDigits n) = n := by
  induction n using Nat.strong_induction_on with
  | _ n ih =>
      rw [natDigits_eq]
      by_cases h : n < 10
      · rw [if_pos h]
        simp [digitsVal, digitChar_toNat n h]
      · rw [if_neg h, digitsVal_append_last, ih (n / 10) (by omega),
          digitChar_toNat _ (Nat.mod_lt _ (by omega))]
        omega

lemma digitsVal_replicate_zero (k : Nat) (ds : List Char) :
    digitsVal (List.replicate k '0' ++ ds) = digitsVal ds := by
  induction k with
  | zero => simp
  | succ k ih =>
      rw [List.replicate_succ, List.cons_append]
      simp only [digitsVal, ih]
      have : '0'.toNat - 48 = 0 := by decide
      rw [this]
      ring

lemma digitsVal_pyFormatD (w n : Nat) : digitsVal (pyFormatD w n).data = n := by
  show digitsVal (List.replicate _ '0' ++ natDigits n) = n
  rw [digitsVal_replicate_zero, digitsVal_natDigits]

lemma pyFormatD_all_digits (w n : Nat) :
    ∀ c ∈ (pyFormatD w n).data, isDigitChar c = true := by
  intro c hc
  rcases List.mem_append.mp hc with hc | hc
  · rw [List.eq_of_mem_replicate hc]
    rfl
  · exact natDigits_all_digits n c hc

lemma pyFormatD_ne_nil (w n : Nat) : (pyFormatD w n).data ≠ [] := by
  show List.replicate _ '0' ++ natDigits n ≠ []
  simp [natDigits_ne_nil n]

lemma natDigits_length_le : ∀ n w, 1 ≤ w → n < 10 ^ w →
    (natDigits n).length ≤ w := by
  intro n
  induction n using Nat.strong_induction_on with
  | _ n ih =>
      intro w hw h
      rw [natDigits_eq]
      by_cases h10 : n < 10
      · rw [if_pos h10]
        simpa using hw
      · rw [if_neg h10]
        rw [List.length_append, List.length_singleton]
        have hw2 : 2 ≤ w := by
          rcases Nat.lt_or_ge w 2 with hc | hc
          · interval_cases w <;> simp_all <;> omega
          · exact hc
        have hpow : 10 ^ w = 10 * 10 ^ (w - 1) := by
          conv_lhs => rw [show w = (w - 1) + 1 by omega]
          rw [pow_succ]
          ring
        have hrec := ih (n / 10) (by omega) (w - 1) (by omega) (by omega)
        omega

lemma pyFormatD_length (w n : Nat) (hw : 1 ≤ w) (h : n < 10 ^ w) :
    (pyFormatD w n).data.length = w := by
  show (List.replicate _ '0' ++ natDigits n).length = w
  rw [List.length_append, List.length_replicate]
  have := natDigits_length_le n w hw h
  omega

lemma digitsVal_lt (ds : List Char) (h : ∀ c ∈ ds, isDigitChar c = true) :
    digitsVal ds < 10 ^ ds.length := by
  induction ds with
  | nil => simp [digitsVal]
  | cons c cs ih =>
      have hc := h c (by simp)
      have hcs := ih (fun x hx => h x (by simp [hx]))
      simp only [digitsVal, List.length_cons]
      have h9 : c.toNat - 48 ≤ 9 := by
        simp only [isDigitChar, Bool.and_eq_true, decide_eq_true_eq] at hc
        omega
      have hmul : (c.toNat - 48) * 10 ^ cs.length ≤ 9 * 10 ^ cs.length :=
        Nat.mul_le_mul_right _ h9
      rw [pow_succ]
      omega

lemma pyFormatD_inj (w a b : Nat)
    (h : (pyFormatD w a).data = (pyFormatD w b).data) : a = b := by
  have ha := digitsVal_pyFormatD w a
  rw [h, digitsVal_pyFormatD] at ha
  omega

lemma mkPid_inj (year a b : Nat)
    (h : pyStrNat year ++ "-" ++ pyFormatD 10 a =
         pyStrNat year ++ "-" ++ pyFormatD 10 b) : a = b := by
  have hd := congrArg String.data h
  have hd2 : ((pyStrNat year).data ++ ['-']) ++ (pyFormatD 10 a).data =
      ((pyStrNat year).data ++ ['-']) ++ (pyFormatD 10 b).data := by
    simpa [List.append_assoc] using hd
  exact pyFormatD_inj 10 a b (List.append_cancel_left hd2)

lemma normalize_of_ne (s : String) (h : (s == "") = false) :
    normalize_payment_method s =
      (if pyUpper (pyStrip s) == "POS" || pyUpper (pyStrip s) == "CARD"
          || pyUpper (pyStrip s) == "CARTE" || pyUpper (pyStrip s) == "CARTA"
       then "POS"
       else if pyStartsWith (pyUpper (pyStrip s)) "BOLL"
           || pyStartsWith (pyUpper (pyStrip s)) "BOL" then "BOLLETTINO"
       else pyUpper (pyStrip s)) := by
  simp only [normalize_payment_method, h, Bool.false_eq_true, if_false]

lemma find?_append_left_none {α} (p : α → Bool) (l1 l2 : List α)
    (h : ∀ x ∈ l1, p x = false) : (l1 ++ l2).find? p = l2.find? p := by
  induction l1 with
  | nil => rfl
  | cons a l ih =>
      simp only [List.cons_append, List.find?]
      rw [h a (by simp)]
      exact ih (fun x hx => h x (by simp [hx]))

lemma add_subscription_eq (st : DBState) (year : Nat) (now : String)
    (ui : UserInfo) (own plate email address mobile : String)
    (ds de : PyDatetime) (pd : PyFloat) (pm reason pid : String) (st2 : DBState)
    (h : add_subscription st year now ui own plate email address mobile ds de pd
        pm reason = some (pid, st2)) :
    get_protocol_id year (st.subs.map (fun r => r.protocol_id)) = some pid ∧
    st.subs.any (fun r => r.protocol_id == pid) = false ∧
    st2.subs = st.subs ++ [addedRow pid own plate email address mobile ds de pd pm now] ∧
    st2.integrity = upsertIntegrity st.integrity
      { table_name := "subscriptions", record_id := pid,
        signature := hmacGenerate (canonicalRow
          (addedRow pid own plate email address mobile ds de pd pm now)),
        created_at := now } := by
  unfold add_subscription at h
  split at h
  · exact Option.noConfusion h
  · rename_i p hg
    split at h
    · exact Option.noConfusion h
    · rename_i ha
      have ha2 : st.subs.any (fun r => r.protocol_id == p) = false := by
        simpa using ha
      simp only [Option.some.injEq, Prod.mk.injEq] at h
      obtain ⟨hp, hst⟩ := h
      subst hp
      have hfind0 : st.subs.find? (fun r => r.protocol_id == p) = none := by
        apply List.find?_eq_none.mpr
        intro x hx
        simpa using List.any_eq_false.mp ha2 x hx
      refine ⟨hg, ha2, ?_, ?_⟩ <;>
        rw [← hst] <;>
        simp [update_integrity_signature, hfind0, addedRow, upsertIntegrity]

lemma bulk_process_row_ok (year : Nat) (now : String) (ui : UserInfo)
    (reason : String) (last_id idx : Nat) (st : DBState) (sub : BulkInput)
    (hok : bulkRowOK sub = true)
    (hfresh : pidFresh st (bulkPid year (last_id + idx + 1)) = true) :
    bulk_process_row year now ui reason last_id idx st sub = .ok
      { subs := st.subs ++ [bulkRow year now (last_id + idx + 1) sub]
        integrity := st.integrity ++ [bulkIRow year now (last_id + idx + 1) sub]
        audit := st.audit ++ [bulkARow year now ui reason (last_id + idx + 1) sub] } := by
  cases hpd : sub.payment_details with
  | none => simp [bulkRowOK, bulkRowError, hpd] at hok
  | some pd =>
  cases hon : sub.owner_name with
  | none => simp [bulkRowOK, bulkRowError, hpd, hon] at hok
  | some own =>
  cases hlp : sub.license_plate with
  | none => simp [bulkRowOK, bulkRowError, hpd, hon, hlp] at hok
  | some plate =>
  cases hss : sub.subscription_start with
  | none => simp [bulkRowOK, bulkRowError, hpd, hon, hlp, hss] at hok
  | some sstart =>
  cases hse : sub.subscription_end with
  | none => simp [bulkRowOK, bulkRowError, hpd, hon, hlp, hss, hse] at hok
  | some send =>
  cases hpm : sub.payment_method with
  | none => simp [bulkRowOK, bulkRowError, hpd, hon, hlp, hss, hse, hpm] at hok
  | some pm =>
  simp only [pidFresh, Bool.and_eq_true, Bool.not_eq_true', Bool.not_eq_false] at hfresh
  obtain ⟨hf1, hf2⟩ := hfresh
  have hfind0 : st.subs.find?
      (fun r => r.protocol_id == bulkPid year (last_id + idx + 1)) = none := by
    apply List.find?_eq_none.mpr
    intro x hx
    simpa using List.any_eq_false.mp hf1 x hx
  unfold bulk_process_row
  simp only [hpd, hon, hlp, hss, hse, hpm, dictKey]
  rw [if_neg (by rw [show pyStrNat year ++ "-" ++ pyFormatD 10 (last_id + idx + 1)
    = bulkPid year (last_id + idx + 1) from rfl, hf1]; exact Bool.false_ne_true)]
  rw [show pyStrNat year ++ "-" ++ pyFormatD 10 (last_id + idx + 1)
    = bulkPid year (last_id + idx + 1) from rfl]
  rw [find?_append_left_none _ _ _
    (fun x hx => by simpa using List.any_eq_false.mp hf1 x hx)]
  simp only [List.find?, beq_self_eq_true]
  rw [if_neg (by rw [hf2]; exact Bool.false_ne_true)]
  simp [bulkRow, bulkIRow, bulkARow, bulkPid, hpd, hon, hlp, hss, hse, hpm,
    pure, Except.pure]

lemma bulk_process_row_error (year : Nat) (now : String) (ui : UserInfo)
    (reason : String) (last_id idx : Nat) (st : DBState) (sub : BulkInput)
    (m : String) (herr : bulkRowError sub = some m) :
    bulk_process_row year now ui reason last_id idx st sub = .error m := by
  unfold bulk_process_row
  cases hpd : sub.payment_details with
  | none =>
      rw [bulkRowError, if_pos (by rw [hpd]; rfl)] at herr
      simp only [dictKey, Option.some.injEq] at herr
      simp [dictKey, ← herr]
  | some pd =>
  cases hon : sub.owner_name with
  | none =>
      rw [bulkRowError, if_neg (by rw [hpd]; simp),
        if_pos (by rw [hon]; rfl)] at herr
      simp only [Option.some.injEq] at herr
      simp [dictKey, hpd, ← herr]
  | some own =>
  cases hlp : sub.license_plate with
  | none =>
      rw [bulkRowError, if_neg (by rw [hpd]; simp), if_neg (by rw [hon]; simp),
        if_pos (by rw [hlp]; rfl)] at herr
      simp only [Option.some.injEq] at herr
      simp [dictKey, hpd, hon, ← herr]
  | some plate =>
  cases hss : sub.subscription_start with
  | none =>
      rw [bulkRowError, if_neg (by rw [hpd]; simp), if_neg (by rw [hon]; simp),
        if_neg (by rw [hlp]; simp), if_pos (by rw [hss]; rfl)] at herr
      simp only [Option.some.injEq] at herr
      simp [dictKey, hpd, hon, hlp, ← herr]
  | some sstart =>
  cases hse : sub.subscription_end with
  | none =>
      rw [bulkRowError, if_neg (by rw [hpd]; simp), if_neg (by rw [hon]; simp),
        if_neg (by rw [hlp]; simp), if_neg (by rw [hss]; simp),
        if_pos (by rw [hse]; rfl)] at herr
      simp only [Option.some.injEq] at herr
      simp [dictKey, hpd, hon, hlp, hss, ← herr]
  | some send =>
  cases hpm : sub.payment_method with
  | none =>
      rw [bulkRowError, if_neg (by rw [hpd]; simp), if_neg (by rw [hon]; simp),
        if_neg (by rw [hlp]; simp), if_neg (by rw [hss]; simp),
        if_neg (by rw [hse]; simp), if_pos (by rw [hpm]; rfl)] at herr
      simp only [Option.some.injEq] at herr
      simp [dictKey, hpd, hon, hlp, hss, hse, ← herr]
  | some pm =>
      rw [bulkRowError, if_neg (by rw [hpd]; simp), if_neg (by rw [hon]; simp),
        if_neg (by rw [hlp]; simp), if_neg (by rw [hss]; simp),
        if_neg (by rw [hse]; simp), if_neg (by rw [hpm]; simp)] at herr
      exact Option.noConfusion herr

lemma bulk_fold_ok (year : Nat) (now : String) (ui : UserInfo) (reason : String)
    (last_id : Nat) :
    ∀ (rows : List BulkInput) (k : Nat) (st : DBState),
    (∀ r ∈ rows, bulkRowOK r = true) →
    (∀ i, i < rows.length →
      pidFresh st (bulkPid year (last_id + (k + i) + 1)) = true) →
    (List.enumFrom k rows).foldlM
        (fun acc p => bulk_process_row year now ui reason last_id p.1 acc p.2)
        st =
      .ok { subs := st.subs ++ (List.enumFrom k rows).map
              (fun p => bulkRow year now (last_id + p.1 + 1) p.2)
            integrity := st.integrity ++ (List.enumFrom k rows).map
              (fun p => bulkIRow year now (last_id + p.1 + 1) p.2)
            audit := st.audit ++ (List.enumFrom k rows).map
              (fun p => bulkARow year now ui reason (last_id + p.1 + 1) p.2) } := by
  intro rows
  induction rows with
  | nil =>
      intro k st _ _
      show pure st = Except.ok _
      rw [show (pure st : Except String DBState) = Except.ok st from rfl]
      simp [List.enumFrom]
  | cons r rows ih =>
      intro k st hok hfresh
      have hstep := bulk_process_row_ok year now ui reason last_id k st r
        (hok r (by simp)) (by simpa using hfresh 0 (by simp))
      have hcons : List.enumFrom k (r :: rows) =
          (k, r) :: List.enumFrom (k + 1) rows := rfl
      rw [hcons]
      have hfold : ((k, r) :: List.enumFrom (k + 1) rows).foldlM
          (fun acc p => bulk_process_row year now ui reason last_id p.1 acc p.2)
          st =
          bulk_process_row year now ui reason last_id k st r >>= fun a =>
            (List.enumFrom (k + 1) rows).foldlM
              (fun acc p => bulk_process_row year now ui reason last_id p.1 acc p.2)
              a := rfl
      rw [hfold, hstep]
      set st1 : DBState :=
        { subs := st.subs ++ [bulkRow year now (last_id + k + 1) r]
          integrity := st.integrity ++ [bulkIRow year now (last_id + k + 1) r]
          audit := st.audit ++ [bulkARow year now ui reason (last_id + k + 1) r] }
        with hst1
      have hbind : (Except.ok st1 >>= fun a =>
          (List.enumFrom (k + 1) rows).foldlM
            (fun acc p => bulk_process_row year now ui reason last_id p.1 acc p.2)
            a) =
          (List.enumFrom (k + 1) rows).foldlM
            (fun acc p => bulk_process_row year now ui reason last_id p.1 acc p.2)
            st1 := rfl
      rw [hbind]
      have hok2 : ∀ x ∈ rows, bulkRowOK x = true :=
        fun x hx => hok x (by simp [hx])
      have hfresh2 : ∀ i, i < rows.length →
          pidFresh st1 (bulkPid year (last_id + (k + 1 + i) + 1)) = true := by
        intro i hi
        have horig := hfresh (i + 1) (by simpa using Nat.succ_lt_succ hi)
        have harith : k + (i + 1) = k + 1 + i := by omega
        rw [harith] at horig
        have hne : (bulkPid year (last_id + k + 1) ==
            bulkPid year (last_id + (k + 1 + i) + 1)) = false := by
          apply beq_eq_false_iff_ne.mpr
          intro he
          have := mkPid_inj year _ _ he
          omega
        simp only [pidFresh, Bool.and_eq_true, Bool.not_eq_true',
          List.any_eq_false] at horig
        obtain ⟨ho1, ho2⟩ := horig
        simp only [hst1, pidFresh, Bool.and_eq_true, Bool.not_eq_true',
          List.any_eq_false]
        constructor
        · intro x hx
          rcases List.mem_append.mp hx with hx | hx
          · exact ho1 x hx
          · rw [List.mem_singleton] at hx
            subst hx
            simpa [bulkRow] using hne
        · intro x hx
          rcases List.mem_append.mp hx with hx | hx
          · exact ho2 x hx
          · rw [List.mem_singleton] at hx
            subst hx
            simp [bulkIRow, hne]
      rw [ih (k + 1) st1 hok2 hfresh2]
      simp [hst1, List.append_assoc]

lemma enumFrom_map_fst {α β : Type} (g : Nat → β) : ∀ (l : List α) (k : Nat),
    (List.enumFrom k l).map (fun p => g p.1) =
      (List.range l.length).map (fun i => g (k + i)) := by
  intro l
  induction l with
  | nil => intro k; rfl
  | cons a l ih =>
      intro k
      show g k :: (List.enumFrom (k + 1) l).map (fun p => g p.1) = _
      rw [ih (k + 1), List.length_cons, List.range_succ_eq_map]
      simp only [List.map_cons, List.map_map, Nat.add_zero]
      refine congrArg (g k :: ·) (List.map_congr_left ?_)
      intro i _
      show g (k + 1 + i) = g (k + (i + 1))
      congr 1
      omega

lemma enumFrom_map_snd {α β : Type} (f : α → β) : ∀ (l : List α) (k : Nat),
    (List.enumFrom k l).map (fun p => f p.2) = l.map f := by
  intro l
  induction l with
  | nil => intro k; rfl
  | cons a l ih =>
      intro k
      show f a :: (List.enumFrom (k + 1) l).map (fun p => f p.2) = f a :: l.map f
      rw [ih (k + 1)]

lemma stats_counts (st : DBState) :
    (get_payment_statistics st none none none none).pos_count =
      st.subs.countP
        (fun r => normalize_payment_method r.payment_method == "POS") ∧
    (get_payment_statistics st none none none none).bollettino_count =
      st.subs.countP
        (fun r => normalize_payment_method r.payment_method == "BOLLETTINO") := by
  have key : ∀ (q : String),
      ((get_subscriptions_for_stats st none none).filter
          (fun s => normalize_payment_method s.payment_method == q)).length =
        st.subs.countP
          (fun r => normalize_payment_method r.payment_method == q) := by
    intro q
    unfold get_subscriptions_for_stats
    rw [← List.countP_eq_length_filter, List.countP_map]
    rw [(List.perm_insertionSort _ _).countP_eq]
    have hft : st.subs.filter (fun r =>
        (match (none : Option PyDatetime) with
         | some d => strGeB r.subscription_start d.isoformat
         | none => true) &&
        (match (none : Option PyDatetime) with
         | some d => strLeB r.subscription_start d.isoformat
         | none => true)) = st.subs := by
      simp
    rw [hft]
    rfl
  constructor
  · have hfiltered : (get_subscriptions_for_stats st none none).filter
        (fun sub =>
          if (none : Option PyDatetime).isNone && (none : Option PyDatetime).isNone then
            (!(pyTruthy none) || sub.subscription_start.year == (none : Option Nat).getD 0) &&
            (!(pyTruthy none) || sub.subscription_start.month == (none : Option Nat).getD 0)
          else true) = get_subscriptions_for_stats st none none := by
      simp [pyTruthy]
    show ((get_subscriptions_for_stats st none none).filter _ |>.filter _).length = _
    rw [hfiltered]
    exact key "POS"
  · have hfiltered : (get_subscriptions_for_stats st none none).filter
        (fun sub =>
          if (none : Option PyDatetime).isNone && (none : Option PyDatetime).isNone then
            (!(pyTruthy none) || sub.subscription_start.year == (none : Option Nat).getD 0) &&
            (!(pyTruthy none) || sub.subscription_start.month == (none : Option Nat).getD 0)
          else true) = get_subscriptions_for_stats st none none := by
      simp [pyTruthy]
    show ((get_subscriptions_for_stats st none none).filter _ |>.filter _).length = _
    rw [hfiltered]
    exact key "BOLLETTINO"

lemma verify_fold (st : DBState) : ∀ (rows : List SubRow) (acc : List String),
    rows.foldl (fun issues row =>
      match st.integrity.find? (fun ir => ir.record_id == row.protocol_id) with
      | none => issues ++ ["Missing integrity signature for " ++ row.protocol_id]
      | some ir =>
          if hmacVerify (canonicalRow row) ir.signature then issues
          else issues ++ ["Integrity check failed for " ++ row.protocol_id]) acc
      = acc ++ rows.filterMap (rowIssue st) := by
  intro rows
  induction rows with
  | nil => intro acc; simp
  | cons r rows ih =>
      intro acc
      rw [List.foldl_cons]
      cases hf : st.integrity.find? (fun ir => ir.record_id == r.protocol_id) with
      | none =>
          simp only [hf]
          rw [ih]
          simp [rowIssue, hf]
      | some ir =>
          simp only [hf]
          by_cases hv : hmacVerify (canonicalRow r) ir.signature
          · rw [if_pos hv, ih]
            simp [rowIssue, hf, hv]
          · rw [if_neg hv, ih]
            simp [rowIssue, hf, hv]

lemma verify_eq_filterMap (st : DBState) :
    verify_data_integrity st =
      ((st.subs.filterMap (rowIssue st)).length == 0,
        st.subs.filterMap (rowIssue st)) := by
  unfold verify_data_integrity
  rw [verify_fold st st.subs []]
  rfl

lemma find?_filter_of_pred {α} (p q : α → Bool) :
    ∀ l : List α, (∀ x ∈ l, p x = true → q x = true) →
    (l.filter q).find? p = l.find? p := by
  intro l
  induction l with
  | nil => intro _; rfl
  | cons a l ih =>
      intro h
      cases hq : q a with
      | true =>
          rw [List.filter_cons_of_pos hq]
          cases hp : p a with
          | true => rw [List.find?_cons_of_pos _ hp, List.find?_cons_of_pos _ hp]
          | false =>
              rw [List.find?_cons_of_neg _ (by simp [hp]),
                List.find?_cons_of_neg _ (by simp [hp])]
              exact ih (fun x hx hpx => h x (by simp [hx]) hpx)
      | false =>
          rw [List.filter_cons_of_neg (by simp [hq])]
          have hp : p a = false := by
            cases hpa : p a with
            | false => rfl
            | true => rw [h a (by simp) hpa] at hq; exact hq
          rw [List.find?_cons_of_neg _ (by simp [hp])]
          exact ih (fun x hx hpx => h x (by simp [hx]) hpx)

lemma find?_decomp {α} (p : α → Bool) : ∀ (l : List α) (a : α),
    l.find? p = some a →
    ∃ l1 l2, l = l1 ++ a :: l2 ∧ (∀ x ∈ l1, p x = false) ∧ p a = true := by
  intro l
  induction l with
  | nil => intro a h; simp at h
  | cons b l ih =>
      intro a h
      cases hb : p b with
      | true =>
          rw [List.find?_cons_of_pos _ hb] at h
          obtain rfl : b = a := by simpa using h
          exact ⟨[], l, rfl, by simp, hb⟩
      | false =>
          rw [List.find?_cons_of_neg _ (by simp [hb])] at h
          obtain ⟨l1, l2, rfl, h1, h2⟩ := ih a h
          refine ⟨b :: l1, l2, rfl, ?_, h2⟩
          intro x hx
          rcases List.mem_cons.mp hx with hx | hx
          · subst hx; exact hb
          · exact h1 x hx

lemma find?_append_right_none {α} (p : α → Bool) (l1 l2 : List α)
    (h : ∀ x ∈ l2, p x = false) : (l1 ++ l2).find? p = l1.find? p := by
  induction l1 with
  | nil =>
      show l2.find? p = none
      exact List.find?_eq_none.mpr (fun x hx => by simp [h x hx])
  | cons a l ih =>
      cases hp : p a with
      | true =>
          rw [List.cons_append, List.find?_cons_of_pos _ hp,
            List.find?_cons_of_pos _ hp]
      | false =>
          rw [List.cons_append, List.find?_cons_of_neg _ (by simp [hp]),
            List.find?_cons_of_neg _ (by simp [hp])]
          exact ih

/-- After an upsert of the signature for `pid`, the signature lookup of any
other record id is unchanged, and the lookup of `pid` finds the new row
(assuming every integrity row carries table_name "subscriptions"). -/
lemma upsert_find (st : DBState) (pid : String) (irow : IntegrityRow)
    (htbl : ∀ ir ∈ st.integrity, ir.table_name = "subscriptions")
    (ht : irow.table_name = "subscriptions") (hr : irow.record_id = pid) :
    (∀ q, q ≠ pid →
      (upsertIntegrity st.integrity irow).find? (fun ir => ir.record_id == q) =
        st.integrity.find? (fun ir => ir.record_id == q)) ∧
    (upsertIntegrity st.integrity irow).find? (fun ir => ir.record_id == pid) =
      some irow := by
  constructor
  · intro q hq
    unfold upsertIntegrity
    rw [find?_append_right_none _ _ [irow] (by
      intro x hx
      rw [List.mem_singleton] at hx
      show (x.record_id == q) = false
      rw [hx, hr]
      exact beq_eq_false_iff_ne.mpr (Ne.symm hq))]
    exact find?_filter_of_pred _ _ st.integrity (by
      intro x hx hpx
      have hxq : x.record_id = q := by simpa using hpx
      have hfalse : (x.record_id == irow.record_id) = false := by
        rw [hxq, hr]
        exact beq_eq_false_iff_ne.mpr hq
      simp [hfalse])
  · unfold upsertIntegrity
    rw [find?_append_left_none _ _ [irow] (by
      intro x hx
      have hq := List.of_mem_filter hx
      have hxl := List.mem_of_mem_filter hx
      have htn : x.table_name = "subscriptions" := htbl x hxl
      have hq2 : (x.table_name == irow.table_name &&
          x.record_id == irow.record_id) = false := by
        simpa only [Bool.not_eq_true'] using hq
      rw [htn, ht, hr] at hq2
      show (x.record_id == pid) = false
      simpa using hq2)]
    rw [List.find?_cons_of_pos _ (by rw [hr]; exact beq_self_eq_true pid)]

/-! ## C2 helper lemmas -/

lemma bulkPid_pat (year n : Nat) :
    bulkPid year n = yearPat year ++ pyFormatD 10 n := rfl

lemma yearPat_data (year : Nat) :
    (yearPat year).data = natDigits year ++ ['-'] := by
  show ((pyStrNat year) ++ "-").data = _
  rw [String.data_append]
  rfl

lemma legacyPat_data (year : Nat) :
    (legacyPat year).data =
      'S' :: 'U' :: 'B' :: '-' :: ((natDigits year).drop 2 ++ ['-']) := by
  show (("SUB-" ++ (pyStrNat year).drop 2) ++ "-").data = _
  rw [String.data_append, String.data_append, String.data_drop]
  show (['S', 'U', 'B', '-'] ++ (natDigits year).drop 2) ++ ['-'] = _
  simp

lemma bulkPid_data (year n : Nat) :
    (bulkPid year n).data =
      (natDigits year ++ ['-']) ++ (pyFormatD 10 n).data := by
  rw [bulkPid_pat, String.data_append, yearPat_data]

lemma legPid_data (year n : Nat) :
    (legPid year n).data =
      ('S' :: 'U' :: 'B' :: '-' :: ((natDigits year).drop 2 ++ ['-'])) ++
        (pyFormatD 4 n).data := by
  show ((legacyPat year) ++ pyFormatD 4 n).data = _
  rw [String.data_append, legacyPat_data]

lemma toLower_digit (c : Char) (h : isDigitChar c = true) :
    Char.toLower c = c := by
  simp only [isDigitChar, Bool.and_eq_true, decide_eq_true_eq] at h
  unfold Char.toLower
  rw [if_neg (by omega)]

lemma listIsPrefixOfB_self_append (a b : List Char) :
    listIsPrefixOfB a (a ++ b) = true := by
  induction a with
  | nil => rfl
  | cons c a ih => simp [listIsPrefixOfB, ih]

lemma listIsPrefixOfB_head_ne (a b : Char) (as bs : List Char) (h : a ≠ b) :
    listIsPrefixOfB (a :: as) (b :: bs) = false := by
  simp [listIsPrefixOfB, h]

lemma sqlLikeStarts_self_append (p s : String) :
    sqlLikeStarts p (p ++ s) = true := by
  unfold sqlLikeStarts
  rw [String.data_append, List.map_append]
  exact listIsPrefixOfB_self_append _ _

lemma natDigits_head (year : Nat) :
    ∃ d ds, natDigits year = d :: ds ∧ isDigitChar d = true := by
  cases h : natDigits year with
  | nil => exact absurd h (natDigits_ne_nil year)
  | cons d ds =>
      exact ⟨d, ds, rfl, natDigits_all_digits year d (by rw [h]; simp)⟩

lemma sqlLikeStarts_yearPat_legPid (year n : Nat) :
    sqlLikeStarts (yearPat year) (legPid year n) = false := by
  obtain ⟨d, ds, hds, hd⟩ := natDigits_head year
  unfold sqlLikeStarts
  rw [yearPat_data, legPid_data, hds]
  simp only [List.cons_append, List.map_cons]
  apply listIsPrefixOfB_head_ne
  rw [toLower_digit d hd]
  intro he
  rw [show Char.toLower 'S' = 's' from by decide] at he
  rw [he] at hd
  exact absurd hd (by decide)

lemma sqlLikeStarts_legacyPat_bulkPid (year n : Nat) :
    sqlLikeStarts (legacyPat year) (bulkPid year n) = false := by
  obtain ⟨d, ds, hds, hd⟩ := natDigits_head year
  unfold sqlLikeStarts
  rw [legacyPat_data, bulkPid_data, hds]
  simp only [List.cons_append, List.map_cons]
  apply listIsPrefixOfB_head_ne
  rw [toLower_digit d hd]
  intro he
  rw [show Char.toLower 'S' = 's' from by decide] at he
  rw [← he] at hd
  exact absurd hd (by decide)

lemma charListLtB_self_append (p : List Char) :
    ∀ a b, charListLtB (p ++ a) (p ++ b) = charListLtB a b := by
  induction p with
  | nil => intro a b; rfl
  | cons c p ih =>
      intro a b
      show (if c.toNat < c.toNat then true
            else if c.toNat < c.toNat then false
            else charListLtB (p ++ a) (p ++ b)) = _
      rw [if_neg (Nat.lt_irrefl _), if_neg (Nat.lt_irrefl _), ih]

lemma charListLtB_digits : ∀ (a b : List Char), a.length = b.length →
    (∀ c ∈ a, isDigitChar c = true) → (∀ c ∈ b, isDigitChar c = true) →
    charListLtB a b = decide (digitsVal a < digitsVal b)
  | [], [], _, _, _ => by simp [charListLtB, digitsVal]
  | [], _ :: _, h, _, _ => by simp at h
  | _ :: _, [], h, _, _ => by simp at h
  | a :: as, b :: bs, h, ha, hb => by
      have hlen : as.length = bs.length := by simpa using h
      have hda := ha a (by simp)
      have hdb := hb b (by simp)
      have hrec := charListLtB_digits as bs hlen
        (fun c hc => ha c (by simp [hc])) (fun c hc => hb c (by simp [hc]))
      have hva := digitsVal_lt as (fun c hc => ha c (by simp [hc]))
      have hvb := digitsVal_lt bs (fun c hc => hb c (by simp [hc]))
      simp only [isDigitChar, Bool.and_eq_true, decide_eq_true_eq] at hda hdb
      show (if a.toNat < b.toNat then true
            else if b.toNat < a.toNat then false
            else charListLtB as bs) = _
      simp only [digitsVal, List.length_cons]
      simp only [← hlen]
      rw [← hlen] at hvb
      by_cases h1 : a.toNat < b.toNat
      · rw [if_pos h1]
        symm
        rw [decide_eq_true_iff]
        have h2 : (a.toNat - 48) + 1 ≤ b.toNat - 48 := by omega
        have h3 : ((a.toNat - 48) + 1) * 10 ^ as.length ≤
            (b.toNat - 48) * 10 ^ as.length := Nat.mul_le_mul_right _ h2
        rw [Nat.add_mul, one_mul] at h3
        omega
      · by_cases h2 : b.toNat < a.toNat
        · rw [if_neg h1, if_pos h2]
          symm
          rw [decide_eq_false_iff_not]
          intro hlt
          have h3 : (b.toNat - 48) + 1 ≤ a.toNat - 48 := by omega
          have h4 : ((b.toNat - 48) + 1) * 10 ^ as.length ≤
              (a.toNat - 48) * 10 ^ as.length := Nat.mul_le_mul_right _ h3
          rw [Nat.add_mul, one_mul] at h4
          omega
        · have hab : a.toNat = b.toNat := by omega
          rw [if_neg h1, if_neg h2, hrec, hab]
          simp [Nat.add_lt_add_iff_left]

lemma strLtB_bulkPid (year a b : Nat) (ha : a < 10 ^ 10) (hb : b < 10 ^ 10) :
    strLtB (bulkPid year a) (bulkPid year b) = decide (a < b) := by
  unfold strLtB
  rw [bulkPid_data, bulkPid_data, charListLtB_self_append]
  rw [charListLtB_digits _ _
    (by rw [pyFormatD_length 10 a (by norm_num) ha,
            pyFormatD_length 10 b (by norm_num) hb])
    (pyFormatD_all_digits 10 a) (pyFormatD_all_digits 10 b)]
  rw [digitsVal_pyFormatD, digitsVal_pyFormatD]

lemma strLtB_legPid (year a b : Nat) (ha : a < 10 ^ 4) (hb : b < 10 ^ 4) :
    strLtB (legPid year a) (legPid year b) = decide (a < b) := by
  unfold strLtB
  rw [legPid_data, legPid_data, charListLtB_self_append]
  rw [charListLtB_digits _ _
    (by rw [pyFormatD_length 4 a (by norm_num) ha,
            pyFormatD_length 4 b (by norm_num) hb])
    (pyFormatD_all_digits 4 a) (pyFormatD_all_digits 4 b)]
  rw [digitsVal_pyFormatD, digitsVal_pyFormatD]

lemma sqlMaxBy_map_aux (f : Nat → String) (B : Nat)
    (hmono : ∀ a b, a < B → b < B →
      strLtB (f a) (f b) = decide (a < b)) :
    ∀ (l : List Nat) (a : Nat), (∀ x ∈ l, x < B) → a < B →
      (l.map f).foldl (fun acc s =>
        match acc with
        | none => some s
        | some m => if strLtB m s then some s else some m) (some (f a)) =
      some (f (l.foldl max a)) := by
  intro l
  induction l with
  | nil => intro a _ _; rfl
  | cons x l ih =>
      intro a hl ha
      have hx : x < B := hl x (by simp)
      simp only [List.map_cons, List.foldl_cons]
      show (l.map f).foldl _
        (if strLtB (f a) (f x) then some (f x) else some (f a)) = _
      rw [hmono a x ha hx]
      by_cases hax : a < x
      · rw [if_pos (by simp [hax])]
        rw [ih x (fun y hy => hl y (by simp [hy])) hx]
        rw [max_eq_right (Nat.le_of_lt hax)]
      · rw [if_neg (by simp [hax])]
        rw [ih a (fun y hy => hl y (by simp [hy])) ha]
        rw [max_eq_left (Nat.le_of_not_lt hax)]

lemma sqlMaxBy_map (f : Nat → String) (B : Nat)
    (hmono : ∀ a b, a < B → b < B →
      strLtB (f a) (f b) = decide (a < b))
    (x : Nat) (l : List Nat) (hl : ∀ y ∈ x :: l, y < B) :
    sqlMaxBy ((x :: l).map f) = some (f (l.foldl max x)) := by
  unfold sqlMaxBy
  simp only [List.map_cons, List.foldl_cons]
  exact sqlMaxBy_map_aux f B hmono l x
    (fun y hy => hl y (by simp [hy])) (hl x (by simp))

lemma specCurSeq_lt (year : Nat) (id : String) (n : Nat)
    (h : specCurSeq year id = some n) : n < 10 ^ 10 := by
  unfold specCurSeq at h
  split at h
  · rename_i hc
    have hv := Option.some.inj h
    have := digitsVal_lt (id.data.drop (yearPat year).data.length)
      (List.all_eq_true.mp hc.2.2)
    rw [hc.2.1] at this
    omega
  · exact absurd h (by simp)

lemma specLegSeq_lt (year : Nat) (id : String) (n : Nat)
    (h : specLegSeq year id = some n) : n < 10 ^ 4 := by
  unfold specLegSeq at h
  split at h
  · rename_i hc
    have hv := Option.some.inj h
    have := digitsVal_lt (id.data.drop (legacyPat year).data.length)
      (List.all_eq_true.mp hc.2.2)
    rw [hc.2.1] at this
    omega
  · exact absurd h (by simp)

lemma specCurSeq_bulkPid (year n : Nat) (hn : n < 10 ^ 10) :
    specCurSeq year (bulkPid year n) = some n := by
  unfold specCurSeq
  have hdata : (bulkPid year n).data =
      (yearPat year).data ++ (pyFormatD 10 n).data := by
    rw [bulkPid_data, yearPat_data]
  rw [hdata, List.take_left, List.drop_left]
  rw [if_pos ⟨rfl, pyFormatD_length 10 n (by norm_num) hn,
    List.all_eq_true.mpr (pyFormatD_all_digits 10 n)⟩]
  rw [digitsVal_pyFormatD]

lemma specLegSeq_legPid (year n : Nat) (hn : n < 10 ^ 4) :
    specLegSeq year (legPid year n) = some n := by
  unfold specLegSeq
  have hdata : (legPid year n).data =
      (legacyPat year).data ++ (pyFormatD 4 n).data := by
    rw [legPid_data, legacyPat_data]
  rw [hdata, List.take_left, List.drop_left]
  rw [if_pos ⟨rfl, pyFormatD_length 4 n (by norm_num) hn,
    List.all_eq_true.mpr (pyFormatD_all_digits 4 n)⟩]
  rw [digitsVal_pyFormatD]

lemma specCurSeq_legPid (year n : Nat) :
    specCurSeq year (legPid year n) = none := by
  obtain ⟨d, ds, hds, hd⟩ := natDigits_head year
  unfold specCurSeq
  rw [if_neg]
  rintro ⟨h1, -, -⟩
  rw [legPid_data, yearPat_data, hds] at h1
  rw [show ('S' :: 'U' :: 'B' :: '-' :: ((d :: ds).drop 2 ++ ['-'])) ++
      (pyFormatD 4 n).data =
      'S' :: ('U' :: 'B' :: '-' :: ((d :: ds).drop 2 ++ ['-']) ++
        (pyFormatD 4 n).data) from by simp] at h1
  have hlen : (d :: ds ++ ['-']).length = ds.length + 1 + 1 := by simp
  rw [hlen, List.take_succ_cons] at h1
  injection h1 with h1a h1b
  rw [← h1a] at hd
  exact absurd hd (by decide)

lemma specLegSeq_bulkPid (year n : Nat) :
    specLegSeq year (bulkPid year n) = none := by
  obtain ⟨d, ds, hds, hd⟩ := natDigits_head year
  unfold specLegSeq
  rw [if_neg]
  rintro ⟨h1, -, -⟩
  rw [bulkPid_data, legacyPat_data, hds] at h1
  rw [show ((d :: ds) ++ ['-']) ++ (pyFormatD 10 n).data =
      d :: (ds ++ ['-'] ++ (pyFormatD 10 n).data) from by simp] at h1
  have hlen : ('S' :: 'U' :: 'B' :: '-' ::
      ((d :: ds).drop 2 ++ ['-'])).length =
      ((d :: ds).drop 2 ++ ['-']).length + 3 + 1 := by simp
  rw [hlen, List.take_succ_cons] at h1
  injection h1 with h1a h1b
  rw [h1a] at hd
  exact absurd hd (by decide)

lemma specCurSeq_like (year : Nat) (id : String) (n : Nat)
    (h : specCurSeq year id = some n) :
    sqlLikeStarts (yearPat year) id = true := by
  unfold specCurSeq at h
  split at h
  · rename_i hc
    unfold sqlLikeStarts
    rw [show id.data = (yearPat year).data ++
        id.data.drop (yearPat year).data.length from by
      conv_lhs => rw [← List.take_append_drop
        (yearPat year).data.length id.data]
      rw [hc.1]]
    rw [List.map_append]
    exact listIsPrefixOfB_self_append _ _
  · exact absurd h (by simp)

lemma specLegSeq_like (year : Nat) (id : String) (n : Nat)
    (h : specLegSeq year id = some n) :
    sqlLikeStarts (legacyPat year) id = true := by
  unfold specLegSeq at h
  split at h
  · rename_i hc
    unfold sqlLikeStarts
    rw [show id.data = (legacyPat year).data ++
        id.data.drop (legacyPat year).data.length from by
      conv_lhs => rw [← List.take_append_drop
        (legacyPat year).data.length id.data]
      rw [hc.1]]
    rw [List.map_append]
    exact listIsPrefixOfB_self_append _ _
  · exact absurd h (by simp)

lemma specCurSeq_not_like (year : Nat) (id : String)
    (h : sqlLikeStarts (yearPat year) id = false) :
    specCurSeq year id = none := by
  cases hc : specCurSeq year id with
  | none => rfl
  | some n => rw [specCurSeq_like year id n hc] at h; exact absurd h (by simp)

lemma specLegSeq_not_like (year : Nat) (id : String)
    (h : sqlLikeStarts (legacyPat year) id = false) :
    specLegSeq year id = none := by
  cases hc : specLegSeq year id with
  | none => rfl
  | some n => rw [specLegSeq_like year id n hc] at h; exact absurd h (by simp)

lemma pySplitAux_no_sep (sep : Char) :
    ∀ (a acc : List Char), (∀ c ∈ a, c ≠ sep) →
      pySplitAux sep a acc = [acc.reverse ++ a] := by
  intro a
  induction a with
  | nil => intro acc _; simp [pySplitAux]
  | cons c cs ih =>
      intro acc h
      show (if c = sep then acc.reverse :: pySplitAux sep cs []
            else pySplitAux sep cs (c :: acc)) = _
      rw [if_neg (h c (by simp))]
      rw [ih (c :: acc) (fun x hx => h x (by simp [hx]))]
      simp

lemma pySplitAux_sep (sep : Char) :
    ∀ (a r acc : List Char), (∀ c ∈ a, c ≠ sep) →
      pySplitAux sep (a ++ sep :: r) acc =
        (acc.reverse ++ a) :: pySplitAux sep r [] := by
  intro a
  induction a with
  | nil =>
      intro r acc _
      show (if sep = sep then acc.reverse :: pySplitAux sep r []
            else pySplitAux sep r (sep :: acc)) = _
      rw [if_pos rfl]
      simp
  | cons c cs ih =>
      intro r acc h
      show (if c = sep then acc.reverse :: pySplitAux sep (cs ++ sep :: r) []
            else pySplitAux sep (cs ++ sep :: r) (c :: acc)) = _
      rw [if_neg (h c (by simp))]
      rw [ih r (c :: acc) (fun x hx => h x (by simp [hx]))]
      simp

lemma digit_ne_dash (c : Char) (h : isDigitChar c = true) : c ≠ '-' := by
  intro he
  rw [he] at h
  exact absurd h (by decide)

lemma parseSeq_bulkPid (year n : Nat) (hn : n < 10 ^ 10) :
    parseSeq 1 (bulkPid year n) = some n := by
  unfold parseSeq pySplit
  have hdata : (bulkPid year n).data =
      natDigits year ++ '-' :: (pyFormatD 10 n).data := by
    rw [bulkPid_data]; simp
  rw [hdata]
  rw [pySplitAux_sep '-' (natDigits year) _ []
    (fun c hc => digit_ne_dash c (natDigits_all_digits year c hc))]
  rw [pySplitAux_no_sep '-' (pyFormatD 10 n).data []
    (fun c hc => digit_ne_dash c (pyFormatD_all_digits 10 n c hc))]
  show pyInt? ⟨(pyFormatD 10 n).data⟩ = some n
  unfold pyInt?
  rw [if_pos ⟨pyFormatD_ne_nil 10 n,
    List.all_eq_true.mpr (pyFormatD_all_digits 10 n)⟩]
  rw [digitsVal_pyFormatD]

lemma parseSeq_legPid (year n : Nat) (hn : n < 10 ^ 4) :
    parseSeq 2 (legPid year n) = some n := by
  unfold parseSeq pySplit
  have hdata : (legPid year n).data =
      ['S', 'U', 'B'] ++ '-' ::
        ((natDigits year).drop 2 ++ '-' :: (pyFormatD 4 n).data) := by
    rw [legPid_data]; simp
  rw [hdata]
  rw [pySplitAux_sep '-' ['S', 'U', 'B'] _ [] (by decide)]
  rw [pySplitAux_sep '-' ((natDigits year).drop 2) _ []
    (fun c hc => digit_ne_dash c
      (natDigits_all_digits year c (List.mem_of_mem_drop hc)))]
  rw [pySplitAux_no_sep '-' (pyFormatD 4 n).data []
    (fun c hc => digit_ne_dash c (pyFormatD_all_digits 4 n c hc))]
  show pyInt? ⟨(pyFormatD 4 n).data⟩ = some n
  unfold pyInt?
  rw [if_pos ⟨pyFormatD_ne_nil 4 n,
    List.all_eq_true.mpr (pyFormatD_all_digits 4 n)⟩]
  rw [digitsVal_pyFormatD]

lemma c2_filter_cur (year : Nat) : ∀ (ids : List String),
    (∀ id ∈ ids,
      (∃ n, n < 10 ^ 10 ∧ id = bulkPid year n) ∨
      (∃ n, n < 10 ^ 4 ∧ id = legPid year n) ∨
      (sqlLikeStarts (yearPat year) id = false ∧
       sqlLikeStarts (legacyPat year) id = false)) →
    ids.filter (sqlLikeStarts (yearPat year)) =
      (ids.filterMap (specCurSeq year)).map (bulkPid year) := by
  intro ids
  induction ids with
  | nil => intro _; rfl
  | cons id rest ih =>
      intro hwf
      have htail := ih (fun x hx => hwf x (by simp [hx]))
      rcases hwf id (by simp) with ⟨n, hn, rfl⟩ | ⟨n, hn, rfl⟩ | ⟨h1, h2⟩
      · rw [List.filter_cons_of_pos (by
          rw [bulkPid_pat]; exact sqlLikeStarts_self_append _ _)]
        rw [List.filterMap_cons, specCurSeq_bulkPid year n hn]
        rw [List.map_cons, htail]
      · rw [List.filter_cons_of_neg (by
          simp [sqlLikeStarts_yearPat_legPid year n])]
        rw [List.filterMap_cons, specCurSeq_legPid year n]
        exact htail
      · rw [List.filter_cons_of_neg (by simp [h1])]
        rw [List.filterMap_cons, specCurSeq_not_like year id h1]
        exact htail

lemma c2_filter_leg (year : Nat) : ∀ (ids : List String),
    (∀ id ∈ ids,
      (∃ n, n < 10 ^ 10 ∧ id = bulkPid year n) ∨
      (∃ n, n < 10 ^ 4 ∧ id = legPid year n) ∨
      (sqlLikeStarts (yearPat year) id = false ∧
       sqlLikeStarts (legacyPat year) id = false)) →
    ids.filter (sqlLikeStarts (legacyPat year)) =
      (ids.filterMap (specLegSeq year)).map (legPid year) := by
  intro ids
  induction ids with
  | nil => intro _; rfl
  | cons id rest ih =>
      intro hwf
      have htail := ih (fun x hx => hwf x (by simp [hx]))
      rcases hwf id (by simp) with ⟨n, hn, rfl⟩ | ⟨n, hn, rfl⟩ | ⟨h1, h2⟩
      · rw [List.filter_cons_of_neg (by
          simp [sqlLikeStarts_legacyPat_bulkPid year n])]
        rw [List.filterMap_cons, specLegSeq_bulkPid year n]
        exact htail
      · rw [List.filter_cons_of_pos (by
          show sqlLikeStarts (legacyPat year) (legPid year n) = true
          exact sqlLikeStarts_self_append _ _)]
        rw [List.filterMap_cons, specLegSeq_legPid year n hn]
        rw [List.map_cons, htail]
      · rw [List.filter_cons_of_neg (by simp [h2])]
        rw [List.filterMap_cons, specLegSeq_not_like year id h2]
        exact htail

lemma foldl_max_lt (B : Nat) : ∀ (l : List Nat) (a : Nat), a < B →
    (∀ x ∈ l, x < B) → l.foldl max a < B := by
  intro l
  induction l with
  | nil => intro a ha _; simpa using ha
  | cons x l ih =>
      intro a ha hl
      simp only [List.foldl_cons]
      exact ih (max a x) (Nat.max_lt.mpr ⟨ha, hl x (by simp)⟩)
        (fun y hy => hl y (by simp [hy]))

lemma le_foldl_max_init : ∀ (l : List Nat) (a : Nat), a ≤ l.foldl max a := by
  intro l
  induction l with
  | nil => intro a; simp
  | cons x l ih =>
      intro a
      simp only [List.foldl_cons]
      exact le_trans (le_max_left a x) (ih (max a x))

lemma le_foldl_max_mem : ∀ (l : List Nat) (a x : Nat),
    x ∈ l → x ≤ l.foldl max a := by
  intro l
  induction l with
  | nil => intro a x hx; cases hx
  | cons y l ih =>
      intro a x hx
      simp only [List.foldl_cons]
      rcases List.mem_cons.mp hx with rfl | hx
      · exact le_trans (le_max_right a x) (le_foldl_max_init l (max a x))
      · exact ih (max a y) x hx

lemma foldl_max_shift : ∀ (l : List Nat) (a : Nat),
    l.foldl max a = max a (l.foldl max 0) := by
  intro l
  induction l with
  | nil => intro a; simp
  | cons x l ih =>
      intro a
      simp only [List.foldl_cons]
      rw [ih (max a x), ih (max 0 x), Nat.zero_max, max_assoc]

/-! # Claims -/

/-- C9, counterexample: the claim says an unrecognized method string passes
through *unchanged* and that stored records' `payment_method` lies in the
closed set; but `_normalize_payment_method("Contanti")` returns the
upper-cased `"CONTANTI"`, and `add_subscription` stores `"carta"` as
`"CARTA"` (not `"POS"`), outside the closed set. -/
theorem C9_counterexample :
    (normalize_payment_method "Contanti" = "CONTANTI" ∧ "CONTANTI" ≠ "Contanti") ∧
    ((add_subscription ⟨[], [], []⟩ 2026 "2026-01-02T00:00:00" ⟨"u", "c", "i"⟩
        "Mario" "AB123CD" "m@x" "via" "333" ⟨"2026-01-01"⟩ ⟨"2027-01-01"⟩
        ⟨"50.0"⟩ "carta" "r").map
        (fun p => p.2.subs.map (fun r => r.payment_method)) = some ["CARTA"] ∧
      "CARTA" ∉ (["POS", "BOLLETTINO"] : List String)) := by
  refine ⟨⟨by decide, by decide⟩, by decide, by decide⟩

/-- C9 (amended): `_normalize_payment_method` maps every strip/upper variant
of carta/carte/card (and POS itself) to POS and every string whose stripped
upper-cased form starts with BOL to BOLLETTINO; an unrecognized method string
is returned stripped and upper-cased (not literally unchanged, and never
dropped); `add_subscription` stores the supplied payment method stripped and
upper-cased (closed-set normalization happens only at analytics time). -/
theorem C9_payment_method_normalization (s : String) (st : DBState)
    (year : Nat) (now : String) (ui : UserInfo)
    (own plate email address mobile : String) (ds de : PyDatetime)
    (pd : PyFloat) (reason pid : String) (st2 : DBState) :
    (pyUpper (pyStrip s) ∈ (["CARTA", "CARTE", "CARD", "POS"] : List String) →
      normalize_payment_method s = "POS") ∧
    (pyStartsWith (pyUpper (pyStrip s)) "BOL" = true →
      normalize_payment_method s = "BOLLETTINO") ∧
    (s ≠ "" →
      pyUpper (pyStrip s) ∉ (["CARTA", "CARTE", "CARD", "POS"] : List String) →
      pyStartsWith (pyUpper (pyStrip s)) "BOLL" = false →
      pyStartsWith (pyUpper (pyStrip s)) "BOL" = false →
      normalize_payment_method s = pyUpper (pyStrip s)) ∧
    (add_subscription st year now ui own plate email address mobile ds de pd s
        reason = some (pid, st2) →
      st2.subs.map (fun r => r.payment_method) =
        st.subs.map (fun r => r.payment_method) ++ [pyUpper (pyStrip s)]) := by
  refine ⟨?_, ?_, ?_, ?_⟩
  · intro hmem
    have hne : (s == "") = false := by
      rcases hbe : s == "" with _ | _
      · rfl
      · exfalso
        have hs : s = "" := by simpa using hbe
        subst hs
        revert hmem
        decide
    rw [normalize_of_ne s hne]
    simp only [List.mem_cons, List.not_mem_nil, or_false] at hmem
    rcases hmem with h4 | h4 | h4 | h4 <;> rw [h4] <;> rfl
  · intro hsw
    have hne : (s == "") = false := by
      rcases hbe : s == "" with _ | _
      · rfl
      · exfalso
        have hs : s = "" := by simpa using hbe
        subst hs
        exact absurd hsw (by decide)
    rw [normalize_of_ne s hne]
    rcases hor : (pyUpper (pyStrip s) == "POS" || pyUpper (pyStrip s) == "CARD"
        || pyUpper (pyStrip s) == "CARTE" || pyUpper (pyStrip s) == "CARTA") with _ | _
    · rw [if_neg (by simp [hor])]
      rw [if_pos (by simp [hsw])]
    · exfalso
      have : pyUpper (pyStrip s) = "POS" ∨ pyUpper (pyStrip s) = "CARD"
          ∨ pyUpper (pyStrip s) = "CARTE" ∨ pyUpper (pyStrip s) = "CARTA" := by
        simpa [or_assoc] using hor
      rcases this with h4 | h4 | h4 | h4 <;> rw [h4] at hsw <;> exact absurd hsw (by decide)
  · intro hne hmem hb1 hb2
    have hne2 : (s == "") = false := by simpa using hne
    rw [normalize_of_ne s hne2]
    rw [if_neg (by simp_all), if_neg (by simp [hb1, hb2])]
  · intro h
    obtain ⟨_, _, hsubs, _⟩ := add_subscription_eq st year now ui own plate email
      address mobile ds de pd s reason pid st2 h
    rw [hsubs]
    simp [addedRow]

/-- C9 witness: the amended theorem applied at the spec's own examples. -/
theorem C9_witness :
    normalize_payment_method " Carte " = "POS" ∧
    normalize_payment_method "bollettino" = "BOLLETTINO" :=
  ⟨(C9_payment_method_normalization " Carte " ⟨[], [], []⟩ 0 "" ⟨"", "", ""⟩
      "" "" "" "" "" ⟨""⟩ ⟨""⟩ ⟨""⟩ "" "" ⟨[], [], []⟩).1 (by decide),
   (C9_payment_method_normalization "bollettino" ⟨[], [], []⟩ 0 "" ⟨"", "", ""⟩
      "" "" "" "" "" ⟨""⟩ ⟨""⟩ ⟨""⟩ "" "" ⟨[], [], []⟩).2.1 (by decide)⟩

/-- C1, counterexample: the claimed round-trip includes the payment method,
but `add_subscription` strips and upper-cases it before persisting, so
supplying `"carta"` gives back `"CARTA"` ≠ `"carta"`. -/
theorem C1_counterexample :
    (Option.bind (add_subscription ⟨[], [], []⟩ 2026 "2026-01-02T00:00:00"
        ⟨"u", "c", "i"⟩ "Mario" "AB123CD" "m@x" "via 1" "333"
        ⟨"2026-01-01T00:00:00"⟩ ⟨"2027-01-01T00:00:00"⟩ ⟨"50.0"⟩ "carta" "r")
      (fun p => (get_subscription p.2 p.1).map (fun s => s.payment_method)))
      = some "CARTA" ∧ "CARTA" ≠ "carta" :=
  ⟨by decide, by decide⟩

/-- C1 (amended): for every record inserted via `add_subscription`,
`get_subscription` on the returned protocol id immediately afterwards
returns the supplied values for owner name, plate, email, address, mobile,
dates and payment amount — encrypt-then-persist-then-decrypt is the identity
on the sensitive fields — while the payment method comes back stripped and
upper-cased. -/
theorem C1_roundtrip (st : DBState) (year : Nat) (now : String) (ui : UserInfo)
    (own plate email address mobile : String) (ds de : PyDatetime)
    (pd : PyFloat) (pm reason pid : String) (st2 : DBState)
    (h : add_subscription st year now ui own plate email address mobile ds de
        pd pm reason = some (pid, st2)) :
    get_subscription st2 pid = some
      { protocol_id := pid
        owner_name := own
        license_plate := plate
        email := email
        address := address
        mobile := mobile
        subscription_start := ds
        subscription_end := de
        payment_details := pd
        payment_method := pyUpper (pyStrip pm)
        created_at := ⟨now⟩
        updated_at := ⟨now⟩ } := by
  obtain ⟨_, ha, hsubs, _⟩ := add_subscription_eq st year now ui own plate email
    address mobile ds de pd pm reason pid st2 h
  have hfind0 : st.subs.find? (fun r => r.protocol_id == pid) = none := by
    apply List.find?_eq_none.mpr
    intro x hx
    simpa using List.any_eq_false.mp ha x hx
  unfold get_subscription
  rw [hsubs, find?_append_left_none _ _ _
    (fun x hx => by simpa using List.any_eq_false.mp ha x hx)]
  simp [addedRow, cryptoDecrypt, cryptoEncrypt, pyFloatOfStr, pyStrOfFloat,
    pyDatetimeFromIso, PyDatetime.isoformat]

set_option maxRecDepth 8000 in
/-- C1 witness: the amended round-trip at a concrete insertion. -/
theorem C1_roundtrip_witness :
    get_subscription
      ((add_subscription ⟨[], [], []⟩ 2026 "2026-01-02T00:00:00" ⟨"u", "c", "i"⟩
          "Mario" "AB123CD" "m@x" "via 1" "333" ⟨"2026-01-01T00:00:00"⟩
          ⟨"2027-01-01T00:00:00"⟩ ⟨"50.0"⟩ "carta" "r").getD
        ("", ⟨[], [], []⟩)).2 "2026-0000000001" = some
      { protocol_id := "2026-0000000001"
        owner_name := "Mario"
        license_plate := "AB123CD"
        email := "m@x"
        address := "via 1"
        mobile := "333"
        subscription_start := ⟨"2026-01-01T00:00:00"⟩
        subscription_end := ⟨"2027-01-01T00:00:00"⟩
        payment_details := ⟨"50.0"⟩
        payment_method := pyUpper (pyStrip "carta")
        created_at := ⟨"2026-01-02T00:00:00"⟩
        updated_at := ⟨"2026-01-02T00:00:00"⟩ } :=
  C1_roundtrip ⟨[], [], []⟩ 2026 "2026-01-02T00:00:00" ⟨"u", "c", "i"⟩
    "Mario" "AB123CD" "m@x" "via 1" "333" ⟨"2026-01-01T00:00:00"⟩
    ⟨"2027-01-01T00:00:00"⟩ ⟨"50.0"⟩ "carta" "r" "2026-0000000001"
    ((add_subscription ⟨[], [], []⟩ 2026 "2026-01-02T00:00:00" ⟨"u", "c", "i"⟩
        "Mario" "AB123CD" "m@x" "via 1" "333" ⟨"2026-01-01T00:00:00"⟩
        ⟨"2027-01-01T00:00:00"⟩ ⟨"50.0"⟩ "carta" "r").getD
      ("", ⟨[], [], []⟩)).2 (by decide)

/-- C3: `bulk_add_subscriptions` is all-or-nothing.  (1) Whenever it reports
failure the state is exactly the input state — zero subscription rows, zero
integrity signatures, zero audit entries of the batch persist.  (2) With a
failure injected on the last of N rows (a row missing a required key), the
whole batch is rolled back and the original exception message is returned.
(3) On success, the batch gets sequential protocol ids computed once from
the pre-transaction maximum `L`, one integrity signature and one audit entry
per row. -/
theorem C3_bulk_all_or_nothing (st : DBState) (year : Nat) (now : String)
    (ui : UserInfo) (rows : List BulkInput) (bad : BulkInput)
    (reason m : String) (L : Nat) :
    ((bulk_add_subscriptions st year now ui rows reason).1.1 = false →
      (bulk_add_subscriptions st year now ui rows reason).2 = st) ∧
    (bulk_last_id year (st.subs.map (fun r => r.protocol_id)) = .ok L →
      (∀ r ∈ rows, bulkRowOK r = true) →
      (∀ i, i < rows.length + 1 → pidFresh st (bulkPid year (L + i + 1)) = true) →
      bulkRowError bad = some m →
      bulk_add_subscriptions st year now ui (rows ++ [bad]) reason
        = ((false, m), st)) ∧
    (bulk_last_id year (st.subs.map (fun r => r.protocol_id)) = .ok L →
      (∀ r ∈ rows, bulkRowOK r = true) →
      (∀ i, i < rows.length → pidFresh st (bulkPid year (L + i + 1)) = true) →
      (bulk_add_subscriptions st year now ui rows reason).1 = (true, "") ∧
      (bulk_add_subscriptions st year now ui rows reason).2.subs.map
          (fun r => r.protocol_id) =
        st.subs.map (fun r => r.protocol_id) ++
          (List.range rows.length).map (fun i => bulkPid year (L + i + 1)) ∧
      (bulk_add_subscriptions st year now ui rows reason).2.integrity.length =
        st.integrity.length + rows.length ∧
      (bulk_add_subscriptions st year now ui rows reason).2.audit.length =
        st.audit.length + rows.length) := by
  refine ⟨?_, ?_, ?_⟩
  · intro hfail
    unfold bulk_add_subscriptions at hfail ⊢
    cases hlast : bulk_last_id year (st.subs.map fun r => r.protocol_id) with
    | error e => simp [hlast]
    | ok last =>
        cases hfold : rows.enum.foldlM
            (fun acc p => bulk_process_row year now ui reason last p.1 acc p.2)
            st with
        | ok st2 => simp [hlast, hfold] at hfail
        | error e => simp [hlast, hfold]
  · intro hlast hok hfresh herr
    unfold bulk_add_subscriptions
    simp only [hlast]
    have henum : (rows ++ [bad]).enum =
        List.enumFrom 0 rows ++ List.enumFrom rows.length [bad] := by
      show List.enumFrom 0 (rows ++ [bad]) = _
      rw [List.enumFrom_append]
      simp
    have hrun : ((rows ++ [bad]).enum).foldlM
        (fun acc p => bulk_process_row year now ui reason L p.1 acc p.2) st
        = Except.error m := by
      rw [henum, List.foldlM_append]
      rw [bulk_fold_ok year now ui reason L rows 0 st hok
        (fun i hi => by simpa using hfresh i (by omega))]
      show (List.enumFrom rows.length [bad]).foldlM
          (fun acc p => bulk_process_row year now ui reason L p.1 acc p.2) _
          = Except.error m
      show (bulk_process_row year now ui reason L rows.length _ bad >>=
        fun b => pure b) = Except.error m
      rw [bulk_process_row_error year now ui reason L rows.length _ bad m herr]
      rfl
    rw [hrun]
  · intro hlast hok hfresh
    unfold bulk_add_subscriptions
    simp only [hlast]
    have hfold := bulk_fold_ok year now ui reason L rows 0 st hok
      (fun i hi => by simpa using hfresh i hi)
    rw [show rows.enum = List.enumFrom 0 rows from rfl, hfold]
    refine ⟨rfl, ?_, by simp, by simp⟩
    simp only [List.map_append, List.map_map]
    congr 1
    have : ∀ p : Nat × BulkInput,
        (bulkRow year now (L + p.1 + 1) p.2).protocol_id =
          bulkPid year (L + p.1 + 1) := fun p => rfl
    calc (List.enumFrom 0 rows).map
          ((fun r => r.protocol_id) ∘ fun p => bulkRow year now (L + p.1 + 1) p.2)
        = (List.enumFrom 0 rows).map (fun p => bulkPid year (L + p.1 + 1)) := rfl
      _ = (List.range rows.length).map (fun i => bulkPid year (L + (0 + i) + 1)) :=
          enumFrom_map_fst (fun n => bulkPid year (L + n + 1)) rows 0
      _ = (List.range rows.length).map (fun i => bulkPid year (L + i + 1)) := by
          simp

/-- C3 witness: a concrete two-good-rows-plus-bad-last-row batch is rolled
back with the original KeyError message, and the two-good-row batch succeeds
with sequential ids. -/
theorem C3_bulk_witness :
    bulk_add_subscriptions ⟨[], [], []⟩ 2026 "now" ⟨"u", "c", "i"⟩
      ([⟨some "A", some "P1", some "e", some "a", some "m",
          some ⟨"2026-01-01"⟩, some ⟨"2026-02-01"⟩, some ⟨"5.0"⟩, some "POS"⟩,
        ⟨some "B", some "P2", some "e", some "a", some "m",
          some ⟨"2026-01-01"⟩, some ⟨"2026-02-01"⟩, some ⟨"6.0"⟩, some "POS"⟩] ++
        [⟨some "C", some "P3", none, none, none,
          some ⟨"2026-01-01"⟩, some ⟨"2026-02-01"⟩, none, some "POS"⟩]) "imp"
      = ((false, "KeyError: payment_details"), ⟨[], [], []⟩) :=
  (C3_bulk_all_or_nothing ⟨[], [], []⟩ 2026 "now" ⟨"u", "c", "i"⟩
    [⟨some "A", some "P1", some "e", some "a", some "m",
        some ⟨"2026-01-01"⟩, some ⟨"2026-02-01"⟩, some ⟨"5.0"⟩, some "POS"⟩,
      ⟨some "B", some "P2", some "e", some "a", some "m",
        some ⟨"2026-01-01"⟩, some ⟨"2026-02-01"⟩, some ⟨"6.0"⟩, some "POS"⟩]
    ⟨some "C", some "P3", none, none, none,
      some ⟨"2026-01-01"⟩, some ⟨"2026-02-01"⟩, none, some "POS"⟩
    "imp" "KeyError: payment_details" 0).2.1 (by rfl) (by decide)
    (by decide) (by decide)

/-- C10: closed-set payment-method normalization happens only in the
analytics projections, not at persistence time.  `add_subscription` stores
the supplied method stripped and upper-cased; `bulk_add_subscriptions`
stores it verbatim; `get_payment_statistics` counts POS/BOLLETTINO through
`_normalize_payment_method` at read time; and the two insert paths store
different values for the same input `"carta"`. -/
theorem C10_normalization_at_read_only (st : DBState) (year : Nat)
    (now : String) (ui : UserInfo) (own plate email address mobile : String)
    (ds de : PyDatetime) (pd : PyFloat) (pm reason pid : String)
    (st2 : DBState) (rows : List BulkInput) (L : Nat) :
    (add_subscription st year now ui own plate email address mobile ds de pd
        pm reason = some (pid, st2) →
      st2.subs.map (fun r => r.payment_method) =
        st.subs.map (fun r => r.payment_method) ++ [pyUpper (pyStrip pm)]) ∧
    (bulk_last_id year (st.subs.map (fun r => r.protocol_id)) = .ok L →
      (∀ r ∈ rows, bulkRowOK r = true) →
      (∀ i, i < rows.length → pidFresh st (bulkPid year (L + i + 1)) = true) →
      (bulk_add_subscriptions st year now ui rows reason).2.subs.map
          (fun r => r.payment_method) =
        st.subs.map (fun r => r.payment_method) ++
          rows.map (fun r => r.payment_method.getD "")) ∧
    ((get_payment_statistics st none none none none).pos_count =
        st.subs.countP
          (fun r => normalize_payment_method r.payment_method == "POS") ∧
      (get_payment_statistics st none none none none).bollettino_count =
        st.subs.countP
          (fun r => normalize_payment_method r.payment_method == "BOLLETTINO")) ∧
    (pyUpper (pyStrip "carta") = "CARTA" ∧ "CARTA" ≠ "carta" ∧
      normalize_payment_method "CARTA" = "POS") := by
  refine ⟨?_, ?_, ?_, by decide, by decide, by decide⟩
  · intro h
    obtain ⟨_, _, hsubs, _⟩ := add_subscription_eq st year now ui own plate
      email address mobile ds de pd pm reason pid st2 h
    rw [hsubs]
    simp [addedRow]
  · intro hlast hok hfresh
    unfold bulk_add_subscriptions
    simp only [hlast]
    have hfold := bulk_fold_ok year now ui reason L rows 0 st hok
      (fun i hi => by simpa using hfresh i hi)
    rw [show rows.enum = List.enumFrom 0 rows from rfl, hfold]
    show (st.subs ++ (List.enumFrom 0 rows).map
        (fun p => bulkRow year now (L + p.1 + 1) p.2)).map
        (fun r => r.payment_method) = _
    rw [List.map_append, List.map_map]
    congr 1
    calc (List.enumFrom 0 rows).map
          ((fun r => r.payment_method) ∘ fun p => bulkRow year now (L + p.1 + 1) p.2)
        = (List.enumFrom 0 rows).map (fun p => p.2.payment_method.getD "") := rfl
      _ = rows.map (fun r => r.payment_method.getD "") :=
          enumFrom_map_snd (fun r => r.payment_method.getD "") rows 0
  · exact stats_counts st

set_option maxRecDepth 8000 in
/-- C10 witness: `"carta"` is stored as `"CARTA"` by `add_subscription` and
as `"carta"` by `bulk_add_subscriptions`. -/
theorem C10_witness :
    ((add_subscription ⟨[], [], []⟩ 2026 "now" ⟨"u", "c", "i"⟩ "O" "P" "e" "a"
        "m" ⟨"s"⟩ ⟨"t"⟩ ⟨"5.0"⟩ "carta" "r").getD
      ("", ⟨[], [], []⟩)).2.subs.map (fun r => r.payment_method) = ["CARTA"] ∧
    (bulk_add_subscriptions ⟨[], [], []⟩ 2026 "now" ⟨"u", "c", "i"⟩
        [⟨some "O", some "P", some "e", some "a", some "m", some ⟨"s"⟩,
          some ⟨"t"⟩, some ⟨"5.0"⟩, some "carta"⟩] "r").2.subs.map
      (fun r => r.payment_method) = ["carta"] := by
  constructor
  · have := (C10_normalization_at_read_only ⟨[], [], []⟩ 2026 "now"
      ⟨"u", "c", "i"⟩ "O" "P" "e" "a" "m" ⟨"s"⟩ ⟨"t"⟩ ⟨"5.0"⟩ "carta" "r"
      "2026-0000000001"
      ((add_subscription ⟨[], [], []⟩ 2026 "now" ⟨"u", "c", "i"⟩ "O" "P" "e"
          "a" "m" ⟨"s"⟩ ⟨"t"⟩ ⟨"5.0"⟩ "carta" "r").getD ("", ⟨[], [], []⟩)).2
      [] 0).1 (by decide)
    simpa using this
  · have := (C10_normalization_at_read_only ⟨[], [], []⟩ 2026 "now"
      ⟨"u", "c", "i"⟩ "O" "P" "e" "a" "m" ⟨"s"⟩ ⟨"t"⟩ ⟨"5.0"⟩ "carta" "r"
      "2026-0000000001" ⟨[], [], []⟩
      [⟨some "O", some "P", some "e", some "a", some "m", some ⟨"s"⟩,
        some ⟨"t"⟩, some ⟨"5.0"⟩, some "carta"⟩] 0).2.1 (by rfl) (by decide)
      (by decide)
    simpa using this

/-- C7: restoring with a wrong passphrase or corrupted ciphertext (decrypt
failure) yields the single user-facing message "Passphrase non corretta o
backup danneggiato" and leaves the live registry exactly untouched — the
failure is detected before file replacement starts, for every archive
content and every injected replacement fault. -/
theorem C7_wrong_passphrase (live : LiveFS) (bytes : List Nat) (pass : String)
    (archive : RestoreArchive) (fault : Option (Nat × String))
    (hmagic : bytes.take 5 = backupMagic)
    (hver : (bytes.drop 5).take 1 = [1])
    (hp : 16 ≤ pass.length) :
    restore_secure_backup live (some bytes) pass false archive fault =
      ((false, "Passphrase non corretta o backup danneggiato"), live) := by
  unfold restore_secure_backup
  have h1 : (bytes.take 5 != backupMagic) = false := by simp [hmagic]
  have h2 : ((bytes.drop 5).take 1 != [1]) = false := by simp [hver]
  simp [h1, h2, Nat.not_lt.mpr hp]

/-- C7 witness. -/
theorem C7_wrong_passphrase_witness :
    restore_secure_backup ⟨some "db", some [("fernet_key.bin", "k")]⟩
      (some (backupMagic ++ [1] ++ List.replicate 32 0 ++ [9]))
      "longpassphrase12345" false ⟨some "newdb", none⟩ none =
      ((false, "Passphrase non corretta o backup danneggiato"),
        ⟨some "db", some [("fernet_key.bin", "k")]⟩) :=
  C7_wrong_passphrase ⟨some "db", some [("fernet_key.bin", "k")]⟩
    (backupMagic ++ [1] ++ List.replicate 32 0 ++ [9]) "longpassphrase12345"
    ⟨some "newdb", none⟩ none (by decide) (by decide) (by decide)

/-- C4: a restore failing partway through the replacement phase (fault
injected at any operation of `ReplaceLiveFiles`, e.g. after the storage file
is replaced but before the key files are) rolls the live registry back to
its pre-restore state from the safety copy and reports the failure. -/
theorem C4_restore_rollback (live : LiveFS) (d : String)
    (ks : List (String × String)) (bytes : List Nat) (pass : String)
    (archive : RestoreArchive) (adb : String) (k : Nat) (m : String)
    (hdb : live.db = some d) (hkeys : live.keys = some ks)
    (hmagic : bytes.take 5 = backupMagic)
    (hver : (bytes.drop 5).take 1 = [1])
    (hp : 16 ≤ pass.length)
    (hadb : archive.db = some adb)
    (hk : k < (restoreReplaceOps adb archive.keys).length) :
    restore_secure_backup live (some bytes) pass true archive (some (k, m)) =
      ((false, "Errore durante il ripristino (rollback eseguito): " ++ m),
        live) := by
  unfold restore_secure_backup
  have h1 : (bytes.take 5 != backupMagic) = false := by simp [hmagic]
  have h2 : ((bytes.drop 5).take 1 != [1]) = false := by simp [hver]
  have hlive : ∀ l : LiveFS, restoreRollback live.db live.keys l = live := by
    intro l
    rw [hdb, hkeys]
    show ({ { l with db := some d } with keys := some ks } : LiveFS) = live
    have : live = ⟨live.db, live.keys⟩ := rfl
    rw [this, hdb, hkeys]
  simp [h1, h2, Nat.not_lt.mpr hp, hadb, runFaulty, hk, hlive]

/-- C4 witness: fault injected after the storage file is replaced but before
the key files are (operation index 1). -/
theorem C4_restore_rollback_witness :
    restore_secure_backup ⟨some "olddb", some [("fernet_key.bin", "k1")]⟩
      (some (backupMagic ++ [1] ++ List.replicate 32 0 ++ [9]))
      "longpassphrase12345" true
      ⟨some "newdb", some [("fernet_key.bin", "nk1")]⟩ (some (1, "io error")) =
      ((false, "Errore durante il ripristino (rollback eseguito): io error"),
        ⟨some "olddb", some [("fernet_key.bin", "k1")]⟩) :=
  C4_restore_rollback ⟨some "olddb", some [("fernet_key.bin", "k1")]⟩ "olddb"
    [("fernet_key.bin", "k1")]
    (backupMagic ++ [1] ++ List.replicate 32 0 ++ [9]) "longpassphrase12345"
    ⟨some "newdb", some [("fernet_key.bin", "nk1")]⟩ "newdb" 1 "io error"
    rfl rfl (by decide) (by decide) (by decide) rfl (by decide)

/-- C8, counterexample: a fault injected during the final `f.write` sequence
(here while writing the salt) is cleaned up and reported, but the partially
written output file remains at the destination path, contradicting "never
leaves partially-written output at the final destination path". -/
theorem C8_counterexample :
    perform_secure_backup ⟨none, none, none⟩ "longpassphrase12345" "dbc"
        (some "fk") (some "hk") [1, 2] [7, 8] "/out/x.enc"
        (some (6, "disk full")) =
      ((false, "Errore durante il backup: disk full"),
        ⟨none, none, some (backupMagic ++ [1])⟩) ∧
    some (backupMagic ++ [1]) ≠ (none : Option (List Nat)) ∧
    backupMagic ++ [1] ≠ backupMagic ++ [1] ++ [1, 2] ++ [7, 8] :=
  ⟨by decide, by decide, by decide⟩

/-- C8 (amended): when backup fails at any step — weak-passphrase rejection
before any I/O, or an I/O fault at any of the ten filesystem operations —
`perform_secure_backup` removes its temporary snapshot and package files and
returns `(false, error_message)` with the original message preserved; a
fault during the final write sequence can however leave a partially-written
file at the destination path (the destination is not cleaned up). -/
theorem C8_backup_cleanup (fs : BackupFS) (pass : String) (db : String)
    (fk hk : Option String) (salt enc : List Nat) (out : String)
    (k : Nat) (m : String) :
    (pass.length < 16 →
      perform_secure_backup fs pass db fk hk salt enc out (some (k, m)) =
        ((false, "Passphrase deve essere di almeno 16 caratteri"),
          backupCleanup fs)) ∧
    (16 ≤ pass.length → k < 10 →
      (perform_secure_backup fs pass db fk hk salt enc out (some (k, m))).1 =
        (false, "Errore durante il backup: " ++ m) ∧
      (perform_secure_backup fs pass db fk hk salt enc out
        (some (k, m))).2.temp_db = none ∧
      (perform_secure_backup fs pass db fk hk salt enc out
        (some (k, m))).2.temp_zip = none) := by
  constructor
  · intro hlt
    unfold perform_secure_backup
    rw [if_pos hlt]
  · intro hge hklt
    have hklen : k < (backupOps db fk hk salt enc).length := by
      simpa [backupOps] using hklt
    unfold perform_secure_backup
    rw [if_neg (Nat.not_lt.mpr hge)]
    simp [runFaulty, hklen, backupCleanup]

/-- C8 witness: weak passphrase and an early-step fault both clean up. -/
theorem C8_backup_cleanup_witness :
    perform_secure_backup ⟨some "t1", some "t2", none⟩ "short" "dbc" none none
        [] [] "/out/x.enc" (some (0, "boom")) =
      ((false, "Passphrase deve essere di almeno 16 caratteri"),
        backupCleanup ⟨some "t1", some "t2", none⟩) ∧
    (perform_secure_backup ⟨none, none, none⟩ "longpassphrase12345" "dbc" none
        none [] [] "/out/x.enc" (some (0, "boom"))).1 =
      (false, "Errore durante il backup: boom") :=
  ⟨(C8_backup_cleanup ⟨some "t1", some "t2", none⟩ "short" "dbc" none none
      [] [] "/out/x.enc" 0 "boom").1 (by decide),
   ((C8_backup_cleanup ⟨none, none, none⟩ "longpassphrase12345" "dbc" none none
      [] [] "/out/x.enc" 0 "boom").2 (by decide) (by decide)).1⟩

/-- C6: archive header handling.  (1) A file whose first 5 bytes differ from
the magic constant is rejected by restore with the "not our format" message,
before any decryption attempt (the result is a constant independent of the
decrypt oracle, the archive content and any injected fault) and with the
live registry untouched.  (2) A recognized-magic file whose version byte is
not 0x01 is rejected by restore with the "unsupported version" message — in
particular any version byte other than 0x01/0x02.  (3) The two messages are
distinct.  (4) A keys-only export carries version byte 0x02 and (5) a full
backup written by `perform_secure_backup` carries 0x01, so the two kinds are
distinguishable by the version byte.  (6) Restoring a keys-only export as a
full backup is rejected.  (7) Importing a full backup as keys is rejected
with a dedicated error, and (8) any other version byte is rejected by the
key import with an unrecognized-format error. -/
theorem C6_archive_kinds (live : LiveFS) (bytes data salt enc : List Nat)
    (pass : String) (d1 : Bool) (a1 : RestoreArchive)
    (f1 : Option (Nat × String)) (plen v : Nat) (fs : BackupFS)
    (db out : String) (fk hk : Option String) :
    (bytes.take 5 ≠ backupMagic →
      restore_secure_backup live (some bytes) pass d1 a1 f1 =
        ((false, "File non valido: non è un backup di AbbonaMunicipale"),
          live)) ∧
    (bytes.take 5 = backupMagic → (bytes.drop 5).take 1 ≠ [1] →
      restore_secure_backup live (some bytes) pass d1 a1 f1 =
        ((false, "Versione backup non supportata"), live)) ∧
    ("File non valido: non è un backup di AbbonaMunicipale" ≠
      "Versione backup non supportata") ∧
    ((key_export_bytes salt enc).take 5 = backupMagic ∧
      (key_export_bytes salt enc).get? 5 = some 2) ∧
    (16 ≤ pass.length →
      (perform_secure_backup fs pass db fk hk salt enc out none).1.1 = true ∧
      (perform_secure_backup fs pass db fk hk salt enc out none).2.dest =
        some (backupMagic ++ [1] ++ salt ++ enc)) ∧
    (restore_secure_backup live (some (key_export_bytes salt enc)) pass d1 a1
        f1 = ((false, "Versione backup non supportata"), live)) ∧
    (data.take 5 = backupMagic → data.get? 5 = some 1 →
      key_import_classify data plen = .error
        "Hai selezionato un backup del database (.enc v1).\nPer ripristinare il database usa Ripristina Backup.\nPer le chiavi usa il file esportato da Esporta Chiave di Recupero.") ∧
    (data.take 5 = backupMagic → data.get? 5 = some v → v ≠ 1 → v ≠ 2 →
      key_import_classify data plen = .error
        ("Formato backup non riconosciuto (versione " ++ pyStrNat v ++ ").")) := by
  have hcls : ∀ (hm : data.take 5 = backupMagic),
      data.isEmpty = false ∧ ¬ data.length < 5 := by
    intro hm
    have hlen : (data.take 5).length = 5 := by rw [hm]; rfl
    rw [List.length_take] at hlen
    constructor
    · cases data with
      | nil => simp [backupMagic] at hm
      | cons a l => rfl
    · omega
  refine ⟨?_, ?_, by decide, ?_, ?_, ?_, ?_, ?_⟩
  · intro hne
    have h1 : (bytes.take 5 != backupMagic) = true := by
      simpa [bne_iff_ne] using hne
    unfold restore_secure_backup
    simp [h1]
  · intro hm hne
    have h1 : (bytes.take 5 != backupMagic) = false := by simp [hm]
    have h2 : ((bytes.drop 5).take 1 != [1]) = true := by
      simpa [bne_iff_ne] using hne
    unfold restore_secure_backup
    simp [h1, h2]
  · constructor
    · rfl
    · show ((56 :: 55 :: 48 :: 50 :: 57 :: 2 :: (salt ++ enc))).get? 5 = some 2
      rfl
  · intro hp
    unfold perform_secure_backup
    rw [if_neg (Nat.not_lt.mpr hp)]
    exact ⟨rfl, rfl⟩
  · have h1 : ((key_export_bytes salt enc).take 5 != backupMagic) = false := rfl
    have h2 : (((key_export_bytes salt enc).drop 5).take 1 != [1]) = true := rfl
    unfold restore_secure_backup
    simp [h1, h2]
  · intro hm hv
    obtain ⟨hemp, hlen⟩ := hcls hm
    unfold key_import_classify
    rw [if_neg (by simp [hemp]), if_neg hlen,
      if_neg (by simp [hm]), hv]
    rfl
  · intro hm hv hv1 hv2
    obtain ⟨hemp, hlen⟩ := hcls hm
    unfold key_import_classify
    rw [if_neg (by simp [hemp]), if_neg hlen,
      if_neg (by simp [hm]), hv]
    have e2 : (v == 2) = false := by simp [hv2]
    have e1 : (v == 1) = false := by simp [hv1]
    simp [e1, e2]

/-- C6 witness: concrete bad-magic and keys-as-backup rejections. -/
theorem C6_archive_kinds_witness :
    restore_secure_backup ⟨some "db", some []⟩ (some [0, 1, 2]) "p" true
      ⟨none, none⟩ none =
      ((false, "File non valido: non è un backup di AbbonaMunicipale"),
        ⟨some "db", some []⟩) ∧
    key_import_classify (backupMagic ++ [1] ++ [0]) 20 = .error
      "Hai selezionato un backup del database (.enc v1).\nPer ripristinare il database usa Ripristina Backup.\nPer le chiavi usa il file esportato da Esporta Chiave di Recupero." :=
  ⟨(C6_archive_kinds ⟨some "db", some []⟩ [0, 1, 2] [] [] [] "p" true
      ⟨none, none⟩ none 20 0 ⟨none, none, none⟩ "" "" none none).1 (by decide),
   (C6_archive_kinds ⟨some "db", some []⟩ [] (backupMagic ++ [1] ++ [0]) [] []
      "p" true ⟨none, none⟩ none 20 0 ⟨none, none, none⟩ "" "" none
      none).2.2.2.2.2.2.1 (by decide) (by decide)⟩

/-- C5: `verify_data_integrity` scans every subscription row without aborting:
(a) its issues list is exactly the filterMap of one optional issue string per
row — one per missing signature ("Firma mancante"), one per mismatched
signature ("Firma non valida"); (b) `all_valid = true` exactly when the
issues list is empty; (c) immediately after a successful `add_subscription`
(which re-signs the just-written row) verification still passes; (d) likewise
immediately after `update_subscription` (re-signing the updated row), given
distinct protocol ids. -/
theorem C5_verify_integrity (st : DBState) (year : Nat) (now : String)
    (ui : UserInfo) (own plate email address mobile : String)
    (ds de : PyDatetime) (pd : PyFloat) (pm reason pid : String)
    (st2 st3 : DBState) (b : Bool) :
    ((verify_data_integrity st).2 = st.subs.filterMap (rowIssue st)) ∧
    ((verify_data_integrity st).1 = true ↔ (verify_data_integrity st).2 = []) ∧
    ((∀ ir ∈ st.integrity, ir.table_name = "subscriptions") →
      (verify_data_integrity st).1 = true →
      add_subscription st year now ui own plate email address mobile ds de pd
        pm reason = some (pid, st2) →
      (verify_data_integrity st2).1 = true) ∧
    ((∀ ir ∈ st.integrity, ir.table_name = "subscriptions") →
      (st.subs.map (fun r => r.protocol_id)).Nodup →
      (verify_data_integrity st).1 = true →
      update_subscription st now ui pid own plate email address mobile ds de
        pd pm reason = (b, st3) →
      (verify_data_integrity st3).1 = true) := by
  refine ⟨by rw [verify_eq_filterMap], ?_, ?_, ?_⟩
  · rw [verify_eq_filterMap]
    simp [List.length_eq_zero]
  · intro htbl hval hadd
    obtain ⟨_, ha, hsubs, hint⟩ := add_subscription_eq st year now ui own plate
      email address mobile ds de pd pm reason pid st2 hadd
    rw [verify_eq_filterMap] at hval ⊢
    simp only [List.length_eq_zero, beq_iff_eq] at hval ⊢
    rw [List.filterMap_eq_nil] at hval ⊢
    have hup := upsert_find st pid
      { table_name := "subscriptions", record_id := pid,
        signature := hmacGenerate (canonicalRow (addedRow pid own plate email
          address mobile ds de pd pm now)),
        created_at := now } htbl rfl rfl
    intro x hx
    rw [hsubs] at hx
    rcases List.mem_append.mp hx with hx | hx
    · have hxpid : x.protocol_id ≠ pid := by
        simpa using List.any_eq_false.mp ha x hx
      have heq : rowIssue st2 x = rowIssue st x := by
        unfold rowIssue
        rw [hint, hup.1 x.protocol_id hxpid]
      rw [heq]
      exact hval x hx
    · rw [List.mem_singleton] at hx
      subst hx
      unfold rowIssue
      have hpidfield : (addedRow pid own plate email address mobile ds de pd
          pm now).protocol_id = pid := rfl
      rw [hint, hpidfield, hup.2]
      have hver : hmacVerify (canonicalRow (addedRow pid own plate email
          address mobile ds de pd pm now))
          (hmacGenerate (canonicalRow (addedRow pid own plate email address
            mobile ds de pd pm now))) = true := beq_self_eq_true _
      simp [hver]
  · intro htbl hnodup hval hupd
    unfold update_subscription at hupd
    cases hfind : st.subs.find? (fun r => r.protocol_id == pid) with
    | none =>
        simp only [hfind] at hupd
        have hst3 : st = st3 := by
          simpa using congrArg Prod.snd hupd
        rw [← hst3]
        exact hval
    | some beforeRow =>
        simp only [hfind] at hupd
        have hst3 := (congrArg Prod.snd hupd).symm
        simp only [Prod.snd] at hst3
        -- hst3 : st3 = the audit-extended state
        obtain ⟨l1, l2, hdecomp, hl1, hpa⟩ := find?_decomp _ st.subs beforeRow hfind
        have hpid : beforeRow.protocol_id = pid := by simpa using hpa
        set updF := updRow pid own plate email address mobile ds de pd pm now
          with hupdF
        have hl1map : ∀ x ∈ l1, updF x = x := by
          intro x hx
          rw [hupdF]
          unfold updRow
          rw [if_neg (by simp [hl1 x hx])]
        have hl2pid : ∀ x ∈ l2, x.protocol_id ≠ pid := by
          intro x hx
          rw [hdecomp] at hnodup
          have h1 : ((l1 ++ beforeRow :: l2).map
              (fun r => r.protocol_id)).Nodup := hnodup
          rw [List.map_append, List.map_cons] at h1
          have h2 := (List.Nodup.of_append_right h1)
          rw [List.nodup_cons] at h2
          intro he
          exact h2.1 (by rw [← hpid] at he; exact he ▸ List.mem_map_of_mem _ hx)
        have hurow : updF beforeRow =
            { beforeRow with
              owner_name := own
              license_plate := plate
              email_encrypted := cryptoEncrypt email
              address_encrypted := cryptoEncrypt address
              mobile_encrypted := cryptoEncrypt mobile
              subscription_start := ds.isoformat
              subscription_end := de.isoformat
              payment_details_encrypted := cryptoEncrypt (pyStrOfFloat pd)
              payment_method := pyUpper (pyStrip pm)
              updated_at := now } := by
          rw [hupdF]
          unfold updRow
          rw [if_pos hpa]
        have hupid : (updF beforeRow).protocol_id = pid := by
          rw [hurow]
          exact hpid
        have hmap : st.subs.map updF = l1 ++ (updF beforeRow) :: l2 := by
          rw [hdecomp, List.map_append, List.map_cons]
          congr 1
          · exact (List.map_congr_left
              (fun x hx => (hl1map x hx).trans rfl)).trans (List.map_id l1)
          · congr 1
            refine (List.map_congr_left ?_).trans (List.map_id l2)
            intro x hx
            show updF x = id x
            rw [hupdF]
            unfold updRow
            rw [if_neg (by simp [hl2pid x hx])]
            rfl
        have hfind1 : (st.subs.map updF).find?
            (fun r => r.protocol_id == pid) = some (updF beforeRow) := by
          rw [hmap, find?_append_left_none _ _ _ (fun x hx => hl1 x hx)]
          rw [List.find?_cons_of_pos _ (by simp [hupid])]
        have hintg : update_integrity_signature
            { st with subs := st.subs.map updF } pid now =
            { subs := st.subs.map updF
              integrity := upsertIntegrity st.integrity
                { table_name := "subscriptions"
                  record_id := pid
                  signature := hmacGenerate (canonicalRow (updF beforeRow))
                  created_at := now }
              audit := st.audit } := by
          unfold update_integrity_signature
          simp only [hfind1]
        have hsubs3 : st3.subs = st.subs.map updF := by
          rw [hst3, hintg]
        have hint3 : st3.integrity = upsertIntegrity st.integrity
            { table_name := "subscriptions"
              record_id := pid
              signature := hmacGenerate (canonicalRow (updF beforeRow))
              created_at := now } := by
          rw [hst3, hintg]
        rw [verify_eq_filterMap] at hval ⊢
        simp only [List.length_eq_zero, beq_iff_eq] at hval ⊢
        rw [List.filterMap_eq_nil] at hval ⊢
        have hup := upsert_find st pid
          { table_name := "subscriptions"
            record_id := pid
            signature := hmacGenerate (canonicalRow (updF beforeRow))
            created_at := now } htbl rfl rfl
        intro x hx
        rw [hsubs3, hmap] at hx
        rcases List.mem_append.mp hx with hx | hx
        · have hxpid : x.protocol_id ≠ pid := by simpa using hl1 x hx
          have heq : rowIssue st3 x = rowIssue st x := by
            unfold rowIssue
            rw [hint3, hup.1 x.protocol_id hxpid]
          rw [heq]
          exact hval x (by rw [hdecomp]; exact List.mem_append.mpr (Or.inl hx))
        · rcases List.mem_cons.mp hx with hx | hx
          · subst hx
            unfold rowIssue
            rw [hint3, hupid, hup.2]
            simp [hmacVerify]
          · have hxpid := hl2pid x hx
            have heq : rowIssue st3 x = rowIssue st x := by
              unfold rowIssue
              rw [hint3, hup.1 x.protocol_id hxpid]
            rw [heq]
            exact hval x (by
              rw [hdecomp]
              exact List.mem_append.mpr
                (Or.inr (List.mem_cons.mpr (Or.inr hx))))

set_option maxRecDepth 8000 in
theorem C5_verify_integrity_witness :
    (verify_data_integrity
      ((add_subscription ⟨[], [], []⟩ 2026 "2026-01-02T00:00:00" ⟨"u", "c", "i"⟩
          "Anna" "ZZ999ZZ" "a@x" "via 2" "334" ⟨"2026-01-01T00:00:00"⟩
          ⟨"2027-01-01T00:00:00"⟩ ⟨"60.0"⟩ "pos" "r").getD
        ("", ⟨[], [], []⟩)).2).1 = true :=
  (C5_verify_integrity ⟨[], [], []⟩ 2026 "2026-01-02T00:00:00" ⟨"u", "c", "i"⟩
      "Anna" "ZZ999ZZ" "a@x" "via 2" "334" ⟨"2026-01-01T00:00:00"⟩
      ⟨"2027-01-01T00:00:00"⟩ ⟨"60.0"⟩ "pos" "r" "2026-0000000001"
      ((add_subscription ⟨[], [], []⟩ 2026 "2026-01-02T00:00:00" ⟨"u", "c", "i"⟩
          "Anna" "ZZ999ZZ" "a@x" "via 2" "334" ⟨"2026-01-01T00:00:00"⟩
          ⟨"2027-01-01T00:00:00"⟩ ⟨"60.0"⟩ "pos" "r").getD
        ("", ⟨[], [], []⟩)).2 ⟨[], [], []⟩ false).2.2.1
    (by intro ir hir; cases hir) (by decide) (by decide)

/-- C2: protocol-id allocation in `_get_protocol_id`.  Over a store whose
ids are well-formed current-format ids `YYYY-NNNNNNNNNN`, well-formed
legacy ids `SUB-YY-NNNN`, or ids of other years (matching neither LIKE
pattern), the allocated id is the current format with sequence
`max(highest current-format sequence, highest legacy sequence) + 1`
(the foldl over both extracted sequence lists, so `0 + 1 = 1` when neither
format has a record for the year); every stored sequence of either format
is `≤ M`, so allocation is strictly increasing within the year; and the
allocated id collides with no stored id. -/
theorem C2_protocol_id_allocation (year : Nat) (ids : List String)
    (hwf : ∀ id ∈ ids,
      (∃ n, n < 10 ^ 10 ∧ id = bulkPid year n) ∨
      (∃ n, n < 10 ^ 4 ∧ id = legPid year n) ∨
      (sqlLikeStarts (yearPat year) id = false ∧
       sqlLikeStarts (legacyPat year) id = false)) :
    ∀ M, M = ((ids.filterMap (specCurSeq year)) ++
        (ids.filterMap (specLegSeq year))).foldl max 0 →
      get_protocol_id year ids = some (bulkPid year (M + 1)) ∧
      (∀ n, n < 10 ^ 10 → bulkPid year n ∈ ids → n ≤ M) ∧
      (∀ n, n < 10 ^ 4 → legPid year n ∈ ids → n ≤ M) ∧
      bulkPid year (M + 1) ∉ ids := by
  intro M hM
  have hcurlt : ∀ x ∈ ids.filterMap (specCurSeq year), x < 10 ^ 10 := by
    intro x hx
    obtain ⟨id, hid, hs⟩ := List.mem_filterMap.mp hx
    exact specCurSeq_lt year id x hs
  have hleglt : ∀ x ∈ ids.filterMap (specLegSeq year), x < 10 ^ 4 := by
    intro x hx
    obtain ⟨id, hid, hs⟩ := List.mem_filterMap.mp hx
    exact specLegSeq_lt year id x hs
  have hMeq : M = max ((ids.filterMap (specCurSeq year)).foldl max 0)
      ((ids.filterMap (specLegSeq year)).foldl max 0) := by
    rw [hM, List.foldl_append, foldl_max_shift]
  have hboundM : ∀ n, n < 10 ^ 10 → bulkPid year n ∈ ids → n ≤ M := by
    intro n hn hmem
    have hx : n ∈ ids.filterMap (specCurSeq year) :=
      List.mem_filterMap.mpr
        ⟨bulkPid year n, hmem, specCurSeq_bulkPid year n hn⟩
    rw [hMeq]
    exact le_trans (le_foldl_max_mem _ 0 n hx) (le_max_left _ _)
  have hboundL : ∀ n, n < 10 ^ 4 → legPid year n ∈ ids → n ≤ M := by
    intro n hn hmem
    have hx : n ∈ ids.filterMap (specLegSeq year) :=
      List.mem_filterMap.mpr
        ⟨legPid year n, hmem, specLegSeq_legPid year n hn⟩
    rw [hMeq]
    exact le_trans (le_foldl_max_mem _ 0 n hx) (le_max_right _ _)
  refine ⟨?_, hboundM, hboundL, ?_⟩
  · have hfc := c2_filter_cur year ids hwf
    have hfl := c2_filter_leg year ids hwf
    have hid1 : (match sqlMaxBy
          (ids.filter (sqlLikeStarts (yearPat year))) with
        | none => some 0
        | some s => (parseSeq 1 s).map (fun v => max 0 v)) =
        some ((ids.filterMap (specCurSeq year)).foldl max 0) := by
      rw [hfc]
      cases hc : ids.filterMap (specCurSeq year) with
      | nil => rfl
      | cons x l =>
          have hlt : ∀ y ∈ x :: l, y < 10 ^ 10 :=
            fun y hy => hcurlt y (hc ▸ hy)
          rw [sqlMaxBy_map (bulkPid year) (10 ^ 10)
            (strLtB_bulkPid year) x l hlt]
          have hm : l.foldl max x < 10 ^ 10 :=
            foldl_max_lt _ l x (hlt x (by simp))
              (fun y hy => hlt y (by simp [hy]))
          show (parseSeq 1 (bulkPid year (l.foldl max x))).map
            (fun v => max 0 v) = _
          rw [parseSeq_bulkPid year _ hm]
          show some (max 0 (l.foldl max x)) = _
          simp [List.foldl_cons, Nat.zero_max]
    have hid2 : (match sqlMaxBy
          (ids.filter (sqlLikeStarts (legacyPat year))) with
        | none => some ((ids.filterMap (specCurSeq year)).foldl max 0)
        | some s => (parseSeq 2 s).map
            (fun v => max ((ids.filterMap (specCurSeq year)).foldl max 0) v))
        = some M := by
      rw [hfl]
      cases hc : ids.filterMap (specLegSeq year) with
      | nil =>
          show some ((ids.filterMap (specCurSeq year)).foldl max 0) = some M
          rw [hMeq, hc]
          simp
      | cons x l =>
          have hlt : ∀ y ∈ x :: l, y < 10 ^ 4 :=
            fun y hy => hleglt y (hc ▸ hy)
          rw [sqlMaxBy_map (legPid year) (10 ^ 4)
            (strLtB_legPid year) x l hlt]
          have hm : l.foldl max x < 10 ^ 4 :=
            foldl_max_lt _ l x (hlt x (by simp))
              (fun y hy => hlt y (by simp [hy]))
          show (parseSeq 2 (legPid year (l.foldl max x))).map
            (fun v => max ((ids.filterMap (specCurSeq year)).foldl max 0) v)
            = some M
          rw [parseSeq_legPid year _ hm]
          show some (max ((ids.filterMap (specCurSeq year)).foldl max 0)
            (l.foldl max x)) = some M
          rw [hMeq, hc]
          simp [List.foldl_cons, Nat.zero_max]
    show (match (match sqlMaxBy
          (ids.filter (sqlLikeStarts (yearPat year))) with
        | none => some 0
        | some s => (parseSeq 1 s).map (fun v => max 0 v)) with
      | none => none
      | some id1 =>
          match (match sqlMaxBy
                (ids.filter (sqlLikeStarts (legacyPat year))) with
              | none => some id1
              | some s => (parseSeq 2 s).map (fun v => max id1 v)) with
          | none => none
          | some id2 =>
              some (pyStrNat year ++ "-" ++ pyFormatD 10 (id2 + 1)))
      = some (bulkPid year (M + 1))
    rw [hid1]
    show (match (match sqlMaxBy
          (ids.filter (sqlLikeStarts (legacyPat year))) with
        | none => some ((ids.filterMap (specCurSeq year)).foldl max 0)
        | some s => (parseSeq 2 s).map
            (fun v => max ((ids.filterMap (specCurSeq year)).foldl max 0) v))
        with
      | none => none
      | some id2 => some (pyStrNat year ++ "-" ++ pyFormatD 10 (id2 + 1)))
      = some (bulkPid year (M + 1))
    rw [hid2]
    rfl
  · intro hmem
    rcases hwf _ hmem with ⟨n, hn, he⟩ | ⟨n, hn, he⟩ | ⟨h1, h2⟩
    · by_cases hM10 : M + 1 < 10 ^ 10
      · have heq := mkPid_inj year (M + 1) n he
        have hle : n ≤ M := hboundM n hn (by rw [← he]; exact hmem)
        omega
      · have hd := congrArg String.data he
        rw [bulkPid_data, bulkPid_data] at hd
        have hpad : (pyFormatD 10 (M + 1)).data = (pyFormatD 10 n).data :=
          List.append_cancel_left hd
        have hlen := congrArg List.length hpad
        rw [pyFormatD_length 10 n (by norm_num) hn] at hlen
        have hge : 10 ^ 10 ≤ M + 1 := Nat.le_of_not_lt hM10
        have h11 : 11 ≤ (natDigits (M + 1)).length := by
          by_contra hcon
          have hl10 : (natDigits (M + 1)).length ≤ 10 := by omega
          have hv := digitsVal_lt (natDigits (M + 1))
            (natDigits_all_digits (M + 1))
          rw [digitsVal_natDigits] at hv
          have : M + 1 < 10 ^ 10 := lt_of_lt_of_le hv
            (Nat.pow_le_pow_right (by norm_num) hl10)
          omega
        have hflen : (pyFormatD 10 (M + 1)).data.length =
            (10 - (natDigits (M + 1)).length) + (natDigits (M + 1)).length := by
          show (List.replicate (10 - (natDigits (M + 1)).length) '0' ++
            natDigits (M + 1)).length = _
          rw [List.length_append, List.length_replicate]
        omega
    · obtain ⟨d, ds, hds, hdd⟩ := natDigits_head year
      have hd2 := congrArg String.data he
      rw [bulkPid_data, legPid_data, hds] at hd2
      rw [show ((d :: ds) ++ ['-']) ++ (pyFormatD 10 (M + 1)).data =
          d :: (ds ++ ['-'] ++ (pyFormatD 10 (M + 1)).data) from by
        simp] at hd2
      rw [show ('S' :: 'U' :: 'B' :: '-' :: ((d :: ds).drop 2 ++ ['-'])) ++
          (pyFormatD 4 n).data =
          'S' :: ('U' :: 'B' :: '-' :: ((d :: ds).drop 2 ++ ['-']) ++
            (pyFormatD 4 n).data) from by simp] at hd2
      injection hd2 with hd2a hd2b
      rw [hd2a] at hdd
      exact absurd hdd (by decide)
    · rw [bulkPid_pat, sqlLikeStarts_self_append] at h1
      exact absurd h1 (by simp)

set_option maxRecDepth 8000 in
theorem C2_witness :
    get_protocol_id 2026 ["2026-0000000005", "SUB-26-0003"] =
      some "2026-0000000006" := by
  have h := (C2_protocol_id_allocation 2026
    ["2026-0000000005", "SUB-26-0003"]
    (by
      intro id hid
      simp only [List.mem_cons, List.not_mem_nil, or_false] at hid
      rcases hid with rfl | rfl
      · exact Or.inl ⟨5, by norm_num, by decide⟩
      · exact Or.inr (Or.inl ⟨3, by norm_num, by decide⟩))
    5 (by decide)).1
  exact h.trans (by decide)

end Abbonamenti
